import Mathlib

/-!
A shallow embedding of the cow_vec_item crate (src/lib.rs).

The crate is a copy-on-write wrapper around a vector: a `CowVec` either
borrows an external vector or owns a clone of it, and a mutable iteration
protocol defers the clone until some element is actually written.  The
implementation works with raw pointers into whichever storage is current,
an Alive/Dead guard flag enforcing that at most one item wrapper is
outstanding, and a relocation algorithm that, on the first write through a
wrapper, clones the borrowed vector and recomputes all positions on the new
storage from the wrapper's distance to the end pointer.

Modelling conventions:
- A raw pointer is a pair of an allocation identifier and a byte offset
  from that allocation's base (0 = the borrowed external vector, 1 = the
  owned clone, 2 = the null pointer used before any traversal started).
- The element type's size in bytes is an explicit parameter `sz`; the
  source's `size_of::<T>() == 0` special cases and its
  `size_of::<T>().max(1)` divisions are reproduced verbatim.
- The whole mutable state of a `CowVec` (contents of both allocations, the
  Owned/Borrowed tag, the shared cursor `item`/`end` and the
  `bad_wrapper_use_detector` flag) is one record `S`.  A counter
  `cloneCount` records how many times `ensure_owned` actually cloned.
- A Rust panic is the `Res.panic` outcome; reads through shared references
  are pure functions of the state.
- A user callback passed to an internal iteration is modelled by the value
  it writes through its argument, if any: `g : α → Option α`.
-/

namespace CowVecItem

/-- The two states of the aliasing guard (`WrapperState` in the source). -/
inductive WrapperState where
  | alive
  | dead
deriving DecidableEq

/-- A raw pointer with explicit provenance: the allocation it points into
(0 = borrowed external vector, 1 = owned clone, 2 = null) and the byte
offset from that allocation's base. -/
structure Ptr where
  alloc : Nat
  off : Nat
deriving DecidableEq

/-- The null pointer stored in `item`/`end` at construction time. -/
def nullPtr : Ptr := { alloc := 2, off := 0 }

/-- The full mutable state of a `CowVec` (`CowVecMain` together with the
contents of both possible allocations and `bad_wrapper_use_detector`).
`ext` is the external vector that a `Borrowed` container references;
`ownedList` is the owned storage, meaningful once `isOwnedTag` is true. -/
structure S (α : Type) where
  ext : List α
  ownedList : List α
  isOwnedTag : Bool
  cloneCount : Nat
  item : Ptr
  endp : Ptr
  guard : WrapperState
deriving DecidableEq

/-- `CowVec::is_owned`: true exactly when the content tag is `Owned`. -/
def is_owned (s : S α) : Bool := s.isOwnedTag

/-- Identifier of the allocation the container currently exposes. -/
def curAlloc (s : S α) : Nat := if s.isOwnedTag then 1 else 0

/-- The sequence the container currently exposes (`CowVec::deref`). -/
def curList (s : S α) : List α := if s.isOwnedTag then s.ownedList else s.ext

/-- `CowVecContent::mut_pointer`: base pointer of the current storage and
its length. -/
def mut_pointer (s : S α) : Ptr × Nat :=
  ({ alloc := curAlloc s, off := 0 }, (curList s).length)

/-- `CowVecContent::ensure_owned`: if already owned do nothing, otherwise
clone the borrowed vector into fresh owned storage and switch the tag.
`cloneCount` counts the clones actually performed. -/
def ensure_owned (s : S α) : S α :=
  if s.isOwnedTag then s
  else { s with ownedList := s.ext, isOwnedTag := true,
                cloneCount := s.cloneCount + 1 }

/-- Contents of one allocation (helper for raw pointer access). -/
def allocList (s : S α) (a : Nat) : List α :=
  if a = 0 then s.ext else if a = 1 then s.ownedList else []

/-- Read one element through a raw pointer (the byte offset is translated
to an index by the source's `size_of::<T>().max(1)` scaling). -/
def readPtr [Inhabited α] (sz : Nat) (s : S α) (p : Ptr) : α :=
  (allocList s p.alloc).getD (p.off / max sz 1) default

/-- Write one element through a raw pointer.  Writes into allocation 0
land in the external vector: nothing in the model hides a stray write. -/
def writePtr (sz : Nat) (s : S α) (p : Ptr) (v : α) : S α :=
  if p.alloc = 0 then { s with ext := s.ext.set (p.off / max sz 1) v }
  else if p.alloc = 1 then
    { s with ownedList := s.ownedList.set (p.off / max sz 1) v }
  else s

/-- Advance a pointer by one element, reproducing the source's two advance
branches (one byte for zero-sized types, `size_of` bytes otherwise). -/
def byteAdvance (sz : Nat) (p : Ptr) : Ptr :=
  if sz = 0 then { alloc := p.alloc, off := p.off + 1 }
  else { alloc := p.alloc, off := p.off + sz }

/-- The item wrapper returned by the mutable iterator
(`CowVecItemWrapper`): one element's position, the traversal end pointer
it was created with, and the flag recording whether storage was already
owned at creation time. -/
structure ItemWrapper where
  item : Ptr
  endp : Ptr
  owned : Bool
deriving DecidableEq

/-- Outcome of an operation that can panic. -/
inductive Res (σ : Type _) where
  | panic : Res σ
  | ok : σ → Res σ
deriving DecidableEq

/-- `CowVec::from`: construct a container borrowing the external vector. -/
def fromRef (l : List α) : S α :=
  { ext := l, ownedList := [], isOwnedTag := false, cloneCount := 0,
    item := nullPtr, endp := nullPtr, guard := WrapperState.dead }

/-- `CowVec::from_owned`: construct a container owning its vector. -/
def from_owned (l : List α) : S α :=
  { ext := [], ownedList := l, isOwnedTag := true, cloneCount := 0,
    item := nullPtr, endp := nullPtr, guard := WrapperState.dead }

/-- `CowVec::into_owned`: the resulting owned vector. -/
def into_owned (s : S α) : List α :=
  if s.isOwnedTag then s.ownedList else s.ext

/-- `CowVec::deref`: the read-only passthrough to the current vector. -/
def derefVec (s : S α) : List α := curList s

/-- `CowVecItemWrapper::deref`: read the element, never transitions. -/
def wrapperDeref [Inhabited α] (sz : Nat) (s : S α) (w : ItemWrapper) : α :=
  readPtr sz s w.item

/-- `CowVecItemWrapper::deref_mut` followed by a store of `v`.  If the
wrapper was created on owned storage it writes directly; otherwise it
records its byte distance from the end pointer, calls `ensure_owned`,
recomputes end, its own position and the shared cursor on the new storage,
marks itself owned and then writes. -/
def wrapperWrite (sz : Nat) (s : S α) (w : ItemWrapper) (v : α) :
    S α × ItemWrapper :=
  if w.owned then (writePtr sz s w.item v, w)
  else
    let d := w.endp.off - w.item.off
    let s1 := ensure_owned s
    let pl := mut_pointer s1
    let oldIdx := d / max sz 1
    let item : Ptr :=
      if sz = 0 then { alloc := pl.1.alloc, off := pl.1.off + (pl.2 - oldIdx) }
      else { alloc := pl.1.alloc, off := pl.1.off + (pl.2 - oldIdx) * sz }
    let endP : Ptr :=
      if sz = 0 then { alloc := pl.1.alloc, off := pl.1.off + pl.2 }
      else { alloc := pl.1.alloc, off := pl.1.off + pl.2 * sz }
    let parentItem : Ptr :=
      if sz = 0 then
        { alloc := pl.1.alloc, off := pl.1.off + (pl.2 - oldIdx + 1) }
      else { alloc := pl.1.alloc, off := pl.1.off + (pl.2 - oldIdx + 1) * sz }
    let s2 := { s1 with item := parentItem, endp := endP }
    let w2 : ItemWrapper := { item := item, endp := endP, owned := true }
    (writePtr sz s2 item v, w2)

/-- `Drop for CowVecItemWrapper`: releasing a wrapper unconditionally sets
the guard to Dead. -/
def dropWrapper (s : S α) : S α := { s with guard := WrapperState.dead }

/-- `CowVec::iter_mut`: fails fatally if the guard is not Dead, otherwise
initializes the shared cursor over the current storage. -/
def iter_mut (sz : Nat) (s : S α) : Res (S α) :=
  if s.guard ≠ WrapperState.dead then Res.panic
  else
    let pl := mut_pointer s
    let endP : Ptr :=
      if sz = 0 then { alloc := pl.1.alloc, off := pl.1.off + (curList s).length }
      else { alloc := pl.1.alloc, off := pl.1.off + pl.2 * sz }
    Res.ok { s with item := pl.1, endp := endP }

/-- `CowVecIter::next`: fails fatally if the guard is Alive; returns none
at the end of the range; otherwise yields a wrapper for the current
element, marks the guard Alive and advances the cursor. -/
def next (sz : Nat) (s : S α) : Res (S α × Option ItemWrapper) :=
  if s.guard ≠ WrapperState.dead then Res.panic
  else if s.item = s.endp then Res.ok (s, none)
  else
    let w : ItemWrapper := { item := s.item, endp := s.endp, owned := is_owned s }
    Res.ok ({ s with guard := WrapperState.alive,
                     item := byteAdvance sz s.item }, some w)

/-- `CowVecIter::nth`: rejects when `n` is at least the remaining length;
otherwise advances by `n` elements, yields a wrapper there and advances
one element past it.  The source performs no guard check here and does not
mark the guard Alive. -/
def nth (sz : Nat) (s : S α) (n : Nat) : S α × Option ItemWrapper :=
  let len := (s.endp.off - s.item.off) / max sz 1
  if n ≥ len then (s, none)
  else
    let item1 : Ptr :=
      if sz = 0 then { alloc := s.item.alloc, off := s.item.off + n }
      else { alloc := s.item.alloc, off := s.item.off + n * sz }
    let w : ItemWrapper := { item := item1, endp := s.endp, owned := is_owned s }
    ({ s with item := byteAdvance sz item1 }, some w)

/-- `CowVecIter::count` and both components of `size_hint`. -/
def count (sz : Nat) (s : S α) : Nat :=
  (s.endp.off - s.item.off) / max sz 1

/-- Loop body of `CowVecIter::for_each`, fuel-indexed: produce a wrapper
for the current element, hand it to the callback (which may write through
it), release it, advance.  Also returns the trace of element values that
were presented to the callback. -/
def forEachLoop [Inhabited α] (sz : Nat) (g : α → Option α) :
    Nat → S α → S α × List α
  | 0, s => (s, [])
  | fuel + 1, s =>
    if s.item = s.endp then (s, [])
    else
      let selfItem := s.item
      let s1 := { s with item := byteAdvance sz s.item }
      let w : ItemWrapper :=
        { item := selfItem, endp := s1.endp, owned := is_owned s1 }
      let v := wrapperDeref sz s1 w
      let s2 :=
        match g v with
        | none => s1
        | some v2 => (wrapperWrite sz s1 w v2).1
      let s3 := dropWrapper s2
      let r := forEachLoop sz g fuel s3
      (r.1, v :: r.2)

/-- `CowVecIter::for_each`: one guard check at loop entry, then the loop.
The fuel bound is one more than the byte distance of the range, which the
loop can never exhaust because every step shortens the range by at least
one byte. -/
def for_each [Inhabited α] (sz : Nat) (s : S α) (g : α → Option α) :
    Res (S α × List α) :=
  if s.guard ≠ WrapperState.dead then Res.panic
  else Res.ok (forEachLoop sz g (s.endp.off - s.item.off + 1) s)

/-- Loop of `CowVec::fast_for_each_mut` in the borrowed case, iterating
with a `BorrowedFastForeachItem`: local `item`/`end` pointers, and a write
through the callback's argument performs the relocation of
`BorrowedFastForeachItem::deref_mut` (updating only the local pointers)
when the container is not yet owned. -/
def fastLoopBorrowed [Inhabited α] (sz : Nat) (g : α → Option α) :
    Nat → S α → Ptr → Ptr → S α × List α
  | 0, s, _, _ => (s, [])
  | fuel + 1, s, itemP, endB =>
    if itemP = endB then (s, [])
    else
      let v := readPtr sz s itemP
      match g v with
      | none =>
        let r := fastLoopBorrowed sz g fuel s (byteAdvance sz itemP) endB
        (r.1, v :: r.2)
      | some v2 =>
        if is_owned s then
          let s1 := writePtr sz s itemP v2
          let r := fastLoopBorrowed sz g fuel s1 (byteAdvance sz itemP) endB
          (r.1, v :: r.2)
        else
          let d := endB.off - itemP.off
          let s1 := ensure_owned s
          let pl := mut_pointer s1
          let endB2 : Ptr := { alloc := pl.1.alloc, off := pl.1.off + pl.2 * max sz 1 }
          let item2 : Ptr := { alloc := endB2.alloc, off := endB2.off - d }
          let s2 := writePtr sz s1 item2 v2
          let r := fastLoopBorrowed sz g fuel s2 (byteAdvance sz item2) endB2
          (r.1, v :: r.2)

/-- Loop of `CowVec::fast_for_each_mut` in the owned case, iterating with
an `OwnedForEachItem`: writes go straight through the local pointer. -/
def fastLoopOwned [Inhabited α] (sz : Nat) (g : α → Option α) :
    Nat → S α → Ptr → Ptr → S α × List α
  | 0, s, _, _ => (s, [])
  | fuel + 1, s, itemP, endB =>
    if itemP = endB then (s, [])
    else
      let v := readPtr sz s itemP
      let s1 :=
        match g v with
        | none => s
        | some v2 => writePtr sz s itemP v2
      let r := fastLoopOwned sz g fuel s1 (byteAdvance sz itemP) endB
      (r.1, v :: r.2)

/-- `CowVec::fast_for_each_mut`: compute pointer and length once, then run
the borrowed-wrapper loop or the owned-wrapper loop.  No guard bookkeeping
is involved.  Besides the final state, the trace of element values
presented to the callback is returned. -/
def fast_for_each_mut [Inhabited α] (sz : Nat) (s : S α) (g : α → Option α) :
    S α × List α :=
  let pl := mut_pointer s
  let endB : Ptr :=
    if sz = 0 then { alloc := pl.1.alloc, off := pl.1.off + (curList s).length }
    else { alloc := pl.1.alloc, off := pl.1.off + pl.2 * sz }
  if ¬ is_owned s then fastLoopBorrowed sz g (endB.off - pl.1.off + 1) s pl.1 endB
  else fastLoopOwned sz g (endB.off - pl.1.off + 1) s pl.1 endB

/-- One step of an external mutable traversal: call `next`; if it yields a
wrapper, perform the writes of `ws` in order through that wrapper (first
write relocates if storage was borrowed) and then release the wrapper.  On
a panic the state is returned as it was when the panic fired. -/
def runStep (sz : Nat) (s : S α) (ws : List α) : S α :=
  match next sz s with
  | Res.panic => s
  | Res.ok (s1, none) => s1
  | Res.ok (s1, some w) =>
    let p := ws.foldl (fun q v => wrapperWrite sz q.1 q.2 v) (s1, w)
    dropWrapper p.1

/-- Run a list of traversal steps. -/
def runSteps (sz : Nat) (s : S α) (wss : List (List α)) : S α :=
  wss.foldl (runStep sz) s

/-- A whole traversal: `iter_mut` followed by the given steps. -/
def runTraversal (sz : Nat) (s : S α) (wss : List (List α)) : S α :=
  match iter_mut sz s with
  | Res.panic => s
  | Res.ok s1 => runSteps sz s1 wss

/-- The `is_owned` value observed after each step of a traversal. -/
def isOwnedTrace (sz : Nat) (s : S α) : List (List α) → List Bool
  | [] => []
  | ws :: rest =>
    let s' := runStep sz s ws
    is_owned s' :: isOwnedTrace sz s' rest

/-- Expected ownership trace: true from the first writing step onward. -/
def writeSeenList : Bool → List (List α) → List Bool
  | _, [] => []
  | b, ws :: rest => (b || !ws.isEmpty) :: writeSeenList (b || !ws.isEmpty) rest

/-- `iter_mut` immediately followed by the iterator's internal `for_each`. -/
def iterForEach [Inhabited α] (sz : Nat) (s : S α) (g : α → Option α) :
    Res (S α × List α) :=
  match iter_mut sz s with
  | Res.panic => Res.panic
  | Res.ok s1 => for_each sz s1 g

/-- Modelled from the spec: the loop of an internal for-each that applies
the per-step safety check of `next` before producing each per-element
handle, for every element of the traversal (rather than once at loop
entry).  This is the behaviour the spec sentence about the internal
for-each describes; the source is compared against it. -/
def forEachPerElemLoop [Inhabited α] (sz : Nat) (g : α → Option α) :
    Nat → S α → Res (S α × List α)
  | 0, s => Res.ok (s, [])
  | fuel + 1, s =>
    if s.item = s.endp then Res.ok (s, [])
    else if s.guard ≠ WrapperState.dead then Res.panic
    else
      let selfItem := s.item
      let s1 := { s with item := byteAdvance sz s.item }
      let w : ItemWrapper :=
        { item := selfItem, endp := s1.endp, owned := is_owned s1 }
      let v := wrapperDeref sz s1 w
      let s2 :=
        match g v with
        | none => s1
        | some v2 => (wrapperWrite sz s1 w v2).1
      let s3 := dropWrapper s2
      match forEachPerElemLoop sz g fuel s3 with
      | Res.panic => Res.panic
      | Res.ok r => Res.ok (r.1, v :: r.2)

/-- Modelled from the spec: internal for-each with a per-element safety
check instead of a single check at loop entry. -/
def forEachPerElem [Inhabited α] (sz : Nat) (s : S α) (g : α → Option α) :
    Res (S α × List α) :=
  forEachPerElemLoop sz g (s.endp.off - s.item.off + 1) s

/-- The operations a caller can perform on the container between
traversals: a full mutable traversal with per-step writes, a forced
`ensure_owned`, or a bulk visit with a callback.  Read-only accesses
(`derefVec`, `wrapperDeref`, `into_owned`) are pure functions of the state
and so have no transition to record. -/
inductive Op (α : Type) where
  | traversal : List (List α) → Op α
  | ensureOwnedOp : Op α
  | bulkVisit : (α → Option α) → Op α

/-- Interpret one operation. -/
def runOp [Inhabited α] (sz : Nat) (s : S α) : Op α → S α
  | Op.traversal wss => runTraversal sz s wss
  | Op.ensureOwnedOp => ensure_owned s
  | Op.bulkVisit g => (fast_for_each_mut sz s g).1

/-- Interpret a sequence of operations. -/
def runOps [Inhabited α] (sz : Nat) (s : S α) (ops : List (Op α)) : S α :=
  ops.foldl (runOp sz) s

/-- The state with its shared cursor advanced one element (the cursor
advance performed by `next` and by the for-each loop). -/
def cursorAdvance (sz : Nat) (s : S α) : S α :=
  { s with item := byteAdvance sz s.item }

/-- The observable part of a final container state: both allocations, the
tag, the clone counter and the guard, together with the trace of values
presented to a callback.  The cursor fields are scratch state
reinitialized by every `iter_mut`. -/
def obsOf (e : S α) (t : List α) :
    List α × List α × Bool × Nat × WrapperState × List α :=
  (e.ext, e.ownedList, e.isOwnedTag, e.cloneCount, e.guard, t)

/-- Observable outcome of a possibly-panicking traversal. -/
def obsRes : Res (S α × List α) →
    Option (List α × List α × Bool × Nat × WrapperState × List α)
  | Res.panic => none
  | Res.ok p => some (obsOf p.1 p.2)

/-- A borrowed container over `[32, 33]` whose guard is still Alive: a
handle from a previous traversal has not been released (in Rust this
state is reachable in safe code by `mem::forget`-ting the wrapper). -/
def c9S : S Nat :=
  { fromRef [32, 33] with guard := WrapperState.alive }

/-- A callback that rewrites every element to `47`. -/
def c9g : Nat → Option Nat := fun _ => some 47

/-- Invariant of a borrowed-rooted traversal after `k` steps, where `b`
records whether any step so far has written: the external vector is
untouched, the guard is Dead between steps, the tag and the clone count
follow `b`, the cursor sits at element `k` of the current allocation, and
after the transition the owned contents keep the original length. -/
def stepInv (sz : Nat) (l : List α) (k : Nat) (b : Bool) (s : S α) : Prop :=
  s.ext = l ∧ s.guard = WrapperState.dead ∧ s.isOwnedTag = b ∧
  s.cloneCount = (if b then 1 else 0) ∧
  s.item = { alloc := if b then 1 else 0, off := k * max sz 1 } ∧
  s.endp = { alloc := if b then 1 else 0, off := l.length * max sz 1 } ∧
  (b = true → s.ownedList.length = l.length)

/-- The ownership trace of a whole traversal (empty if `iter_mut` panics). -/
def traversalTrace (sz : Nat) (s : S α) (wss : List (List α)) : List Bool :=
  match iter_mut sz s with
  | Res.panic => []
  | Res.ok s1 => isOwnedTrace sz s1 wss

/-- Allocation-sanity between traversal steps: once owned, the shared
cursor points into the owned allocation. -/
def pInv (s : S α) : Prop :=
  s.isOwnedTag = true → (s.item.alloc = 1 ∧ s.endp.alloc = 1)

/-- A concrete mid-traversal state over `[32, 33]` (element size 4): the
first element has been yielded by `next` and its wrapper is still alive. -/
def c4Alive : S Nat :=
  { ext := [32, 33], ownedList := [], isOwnedTag := false, cloneCount := 0,
    item := { alloc := 0, off := 4 }, endp := { alloc := 0, off := 8 },
    guard := WrapperState.alive }

/-- A concrete borrowed container over `[10, 20, 30]` (element size 4) in
the middle of a traversal. -/
def c2S : S Nat :=
  { ext := [10, 20, 30], ownedList := [], isOwnedTag := false,
    cloneCount := 0, item := { alloc := 0, off := 8 },
    endp := { alloc := 0, off := 12 }, guard := WrapperState.alive }

/-- A wrapper for element index 1 of `c2S` (byte distance 8 from the end),
created while the storage was still borrowed. -/
def c2W : ItemWrapper :=
  { item := { alloc := 0, off := 4 }, endp := { alloc := 0, off := 12 },
    owned := false }

/-- The concrete state refuting the per-element phrasing: a traversal of
borrowed `[32, 33]` that has already produced both elements, with the
wrapper of the last element still alive (guard Alive) and the cursor
exhausted (`item = end`). -/
def c5S : S Nat :=
  { ext := [32, 33], ownedList := [], isOwnedTag := false, cloneCount := 0,
    item := { alloc := 0, off := 8 }, endp := { alloc := 0, off := 8 },
    guard := WrapperState.alive }

/-- The container of the spec skip-by-n scenario: borrowed
`[32, 33, 34, 35]`, element size 4. -/
def c8v : S Nat := fromRef [32, 33, 34, 35]

/-- `c8v` after `iter_mut`. -/
def c8s1 : S Nat :=
  match iter_mut 4 c8v with
  | Res.ok s => s
  | Res.panic => c8v

/-- `c8s1` after one `next` (consuming 32) and dropping the wrapper. -/
def c8s2 : S Nat :=
  match next 4 c8s1 with
  | Res.ok p => dropWrapper p.1
  | Res.panic => c8s1

/-- First skip: `nth 1` from `c8s2` (skipping 33). -/
def c8n1 : S Nat × Option ItemWrapper := nth 4 c8s2 1

/-- State after releasing the wrapper of the first skip. -/
def c8s3 : S Nat := dropWrapper c8n1.1

/-- Second skip: `nth 0` from `c8s3`. -/
def c8n2 : S Nat × Option ItemWrapper := nth 4 c8s3 0

/-- State after releasing the wrapper of the second skip. -/
def c8s4 : S Nat := dropWrapper c8n2.1

/-- Third skip: `nth 1` from `c8s4`, past the end. -/
def c8n3 : S Nat × Option ItemWrapper := nth 4 c8s4 1

/-! ### Basic lemmas about the pointer arithmetic -/

theorem max_sz_pos (sz : Nat) : 0 < max sz 1 := by omega

theorem byteAdvance_eq (sz : Nat) (p : Ptr) :
    byteAdvance sz p = { alloc := p.alloc, off := p.off + max sz 1 } := by
  unfold byteAdvance
  rcases Nat.eq_zero_or_pos sz with h | h
  · subst h; simp
  · have h1 : sz ≠ 0 := by omega
    have h2 : max sz 1 = sz := by omega
    simp [h1, h2]

theorem mul_div_max (sz k : Nat) : k * max sz 1 / max sz 1 = k :=
  Nat.mul_div_cancel k (max_sz_pos sz)

theorem ite_sz_ptr (sz a x n : Nat) :
    (if sz = 0 then ({ alloc := a, off := x + n } : Ptr)
     else { alloc := a, off := x + n * sz }) =
      { alloc := a, off := x + n * max sz 1 } := by
  rcases Nat.eq_zero_or_pos sz with h | h
  · subst h; simp
  · have h1 : sz ≠ 0 := by omega
    have h2 : max sz 1 = sz := by omega
    simp [h1, h2]

/-! ### Evaluation lemmas for the operations -/

theorem writePtr_one (sz : Nat) (s : S α) (off : Nat) (v : α) :
    writePtr sz s { alloc := 1, off := off } v =
      { s with ownedList := s.ownedList.set (off / max sz 1) v } := by
  unfold writePtr
  simp

theorem writePtr_zero (sz : Nat) (s : S α) (off : Nat) (v : α) :
    writePtr sz s { alloc := 0, off := off } v =
      { s with ext := s.ext.set (off / max sz 1) v } := by
  unfold writePtr
  simp

theorem writePtr_alloc_one (sz : Nat) (s : S α) (p : Ptr) (v : α)
    (hp : p.alloc = 1) :
    writePtr sz s p v =
      { s with ownedList := s.ownedList.set (p.off / max sz 1) v } := by
  unfold writePtr
  rw [hp]
  simp

theorem writePtr_guard (sz : Nat) (s : S α) (p : Ptr) (v : α) :
    (writePtr sz s p v).guard = s.guard := by
  unfold writePtr
  split
  · rfl
  · split
    · rfl
    · rfl

/-- A write through a wrapper marked owned is a plain store. -/
theorem wrapperWrite_owned (sz : Nat) (s : S α) (w : ItemWrapper) (v : α)
    (hw : w.owned = true) :
    wrapperWrite sz s w v = (writePtr sz s w.item v, w) := by
  unfold wrapperWrite
  simp [hw]

/-- A write through a wrapper not marked owned, on a still borrowed
container, evaluated: clone, then relocation of end, wrapper position and
shared cursor, then the store on the new storage. -/
theorem wrapperWrite_not_owned (sz : Nat) (s : S α) (w : ItemWrapper) (v : α)
    (hw : w.owned = false) (hb : s.isOwnedTag = false) :
    wrapperWrite sz s w v =
      ({ s with
          ownedList :=
            s.ext.set
              ((s.ext.length - (w.endp.off - w.item.off) / max sz 1) * max sz 1
                / max sz 1) v,
          isOwnedTag := true, cloneCount := s.cloneCount + 1,
          item := { alloc := 1,
                    off := (s.ext.length
                      - (w.endp.off - w.item.off) / max sz 1 + 1) * max sz 1 },
          endp := { alloc := 1, off := s.ext.length * max sz 1 } },
        { item := { alloc := 1,
                    off := (s.ext.length
                      - (w.endp.off - w.item.off) / max sz 1) * max sz 1 },
          endp := { alloc := 1, off := s.ext.length * max sz 1 },
          owned := true }) := by
  rcases Nat.eq_zero_or_pos sz with h0 | hpos
  · subst h0
    unfold wrapperWrite ensure_owned mut_pointer curAlloc curList writePtr
    simp [hw, hb]
  · have h1 : sz ≠ 0 := by omega
    have h2 : max sz 1 = sz := by omega
    unfold wrapperWrite ensure_owned mut_pointer curAlloc curList writePtr
    simp [hw, hb, h1, h2]

theorem iter_mut_dead (sz : Nat) (s : S α) (h : s.guard = WrapperState.dead) :
    iter_mut sz s =
      Res.ok { s with
        item := { alloc := curAlloc s, off := 0 },
        endp := { alloc := curAlloc s,
                  off := (curList s).length * max sz 1 } } := by
  rcases Nat.eq_zero_or_pos sz with h0 | hpos
  · subst h0
    unfold iter_mut mut_pointer
    simp [h]
  · have h1 : sz ≠ 0 := by omega
    have h2 : max sz 1 = sz := by omega
    unfold iter_mut mut_pointer
    simp [h, h1, h2]

theorem next_dead_stop (sz : Nat) (s : S α) (h : s.guard = WrapperState.dead)
    (he : s.item = s.endp) : next sz s = Res.ok (s, none) := by
  unfold next
  simp [h, he]

theorem next_dead_yield (sz : Nat) (s : S α) (h : s.guard = WrapperState.dead)
    (he : s.item ≠ s.endp) :
    next sz s =
      Res.ok ({ s with guard := WrapperState.alive,
                       item := byteAdvance sz s.item },
        some { item := s.item, endp := s.endp, owned := is_owned s }) := by
  unfold next
  simp [h, he]

/-! ### Claim theorems -/

@[simp] theorem dropWrapper_ext (s : S α) : (dropWrapper s).ext = s.ext := rfl

@[simp] theorem dropWrapper_ownedList (s : S α) :
    (dropWrapper s).ownedList = s.ownedList := rfl

@[simp] theorem dropWrapper_isOwnedTag (s : S α) :
    (dropWrapper s).isOwnedTag = s.isOwnedTag := rfl

@[simp] theorem dropWrapper_cloneCount (s : S α) :
    (dropWrapper s).cloneCount = s.cloneCount := rfl

@[simp] theorem dropWrapper_item (s : S α) : (dropWrapper s).item = s.item := rfl

@[simp] theorem dropWrapper_endp (s : S α) : (dropWrapper s).endp = s.endp := rfl

@[simp] theorem dropWrapper_guard (s : S α) :
    (dropWrapper s).guard = WrapperState.dead := rfl

/-- Fields of the state which a raw store never touches; the external
vector is untouched whenever the store is not into allocation 0. -/
theorem writePtr_fields (sz : Nat) (s : S α) (p : Ptr) (v : α) :
    (writePtr sz s p v).guard = s.guard ∧
    (writePtr sz s p v).isOwnedTag = s.isOwnedTag ∧
    (writePtr sz s p v).cloneCount = s.cloneCount ∧
    (writePtr sz s p v).item = s.item ∧
    (writePtr sz s p v).endp = s.endp ∧
    (writePtr sz s p v).ownedList.length = s.ownedList.length ∧
    (p.alloc ≠ 0 → (writePtr sz s p v).ext = s.ext) := by
  unfold writePtr
  by_cases h0 : p.alloc = 0
  · simp [h0]
  · by_cases h1 : p.alloc = 1 <;> simp [h0, h1]

/-- Repeated writes through a wrapper already marked owned (pointing into
the owned allocation) are plain stores: they leave every field except the
owned contents unchanged, keep the wrapper as it is, and preserve the
length of the owned contents. -/
theorem foldl_write_owned (sz : Nat) (vs : List α) :
    ∀ (q : S α × ItemWrapper), q.2.owned = true → q.2.item.alloc = 1 →
      ((vs.foldl (fun r v => wrapperWrite sz r.1 r.2 v) q).2 = q.2 ∧
        (vs.foldl (fun r v => wrapperWrite sz r.1 r.2 v) q).1.ext = q.1.ext ∧
        (vs.foldl (fun r v => wrapperWrite sz r.1 r.2 v) q).1.guard = q.1.guard ∧
        (vs.foldl (fun r v => wrapperWrite sz r.1 r.2 v) q).1.isOwnedTag = q.1.isOwnedTag ∧
        (vs.foldl (fun r v => wrapperWrite sz r.1 r.2 v) q).1.cloneCount = q.1.cloneCount ∧
        (vs.foldl (fun r v => wrapperWrite sz r.1 r.2 v) q).1.item = q.1.item ∧
        (vs.foldl (fun r v => wrapperWrite sz r.1 r.2 v) q).1.endp = q.1.endp ∧
        (vs.foldl (fun r v => wrapperWrite sz r.1 r.2 v) q).1.ownedList.length =
          q.1.ownedList.length) := by
  induction vs with
  | nil => intro q hw ha; simp
  | cons v vs ih =>
    intro q hw ha
    simp only [List.foldl_cons, wrapperWrite_owned sz q.1 q.2 v hw]
    obtain ⟨i1, i2, i3, i4, i5, i6, i7, i8⟩ :=
      ih (writePtr sz q.1 q.2.item v, q.2) hw ha
    obtain ⟨f1, f2, f3, f4, f5, f6, f7⟩ := writePtr_fields sz q.1 q.2.item v
    have hne : q.2.item.alloc ≠ 0 := by omega
    exact ⟨i1, i2.trans (f7 hne), i3.trans f1, i4.trans f2, i5.trans f3,
      i6.trans f4, i7.trans f5, i8.trans f6⟩

/-- One traversal step (`next`, then any number of writes through the
yielded wrapper, then release) preserves the traversal invariant,
advancing the cursor by one element and switching `b` on if this step
wrote. -/
theorem runStep_inv (sz : Nat) (l : List α) (k : Nat) (b : Bool) (s : S α)
    (ws : List α) (h : stepInv sz l k b s) (hk : k < l.length) :
    stepInv sz l (k + 1) (b || !ws.isEmpty) (runStep sz s ws) := by
  obtain ⟨hext, hg, htag, hcc, hit, hen, hol⟩ := h
  have hm := max_sz_pos sz
  have hsucc : k * max sz 1 + max sz 1 = (k + 1) * max sz 1 := by
    rw [Nat.add_mul, one_mul]
  have hne : s.item ≠ s.endp := by
    rw [hit, hen]
    intro hcon
    have h2 : k * max sz 1 = l.length * max sz 1 := congrArg Ptr.off hcon
    have h3 : k = l.length := Nat.eq_of_mul_eq_mul_right hm h2
    omega
  unfold runStep
  rw [next_dead_yield sz s hg hne]
  dsimp only
  cases ws with
  | nil =>
    simp only [List.foldl_nil]
    refine ⟨hext, rfl, by simp [htag], by simp [hcc], ?_, ?_, ?_⟩
    · show byteAdvance sz s.item = _
      rw [hit, byteAdvance_eq]
      simp [hsucc]
    · show s.endp = _
      rw [hen]
      simp
    · intro hb
      simp only [List.isEmpty_nil, Bool.not_true, Bool.or_false] at hb
      simpa using hol (by simp [hb])
  | cons v rest =>
    simp only [List.foldl_cons]
    cases b with
    | false =>
      have hd : s.endp.off - s.item.off = (l.length - k) * max sz 1 := by
        rw [hit, hen]
        show l.length * max sz 1 - k * max sz 1 = _
        rw [Nat.sub_mul]
      have hkk : l.length - (l.length - k) = k := by omega
      have hw : (⟨s.item, s.endp, is_owned s⟩ : ItemWrapper).owned = false := by
        simp [is_owned, htag]
      have hkk2 : s.ext.length - (l.length - k) = k := by rw [hext]; omega
      have hLen : s.ext.length = l.length := by rw [hext]
      have hww :=
        wrapperWrite_not_owned sz
          { s with guard := WrapperState.alive, item := byteAdvance sz s.item }
          ⟨s.item, s.endp, is_owned s⟩ v hw htag
      dsimp only at hww
      rw [hd] at hww
      simp only [mul_div_max] at hww
      rw [hkk2] at hww
      rw [hLen] at hww
      obtain ⟨j1, j2, j3, j4, j5, j6, j7, j8⟩ :=
        foldl_write_owned sz rest
          (wrapperWrite sz
            { s with guard := WrapperState.alive, item := byteAdvance sz s.item }
            ⟨s.item, s.endp, is_owned s⟩ v)
          (by rw [hww]) (by rw [hww])
      refine ⟨?_, rfl, ?_, ?_, ?_, ?_, ?_⟩
      · simp only [dropWrapper_ext]
        rw [j2, hww]
        exact hext
      · simp only [dropWrapper_isOwnedTag]
        rw [j4, hww]
        simp
      · simp only [dropWrapper_cloneCount]
        rw [j5, hww]
        simp [hcc]
      · simp only [dropWrapper_item]
        rw [j6, hww]
        simp
      · simp only [dropWrapper_endp]
        rw [j7, hww]
        simp
      · intro _
        simp only [dropWrapper_ownedList]
        rw [j8, hww]
        simp [hext]
    | true =>
      have hw : (⟨s.item, s.endp, is_owned s⟩ : ItemWrapper).owned = true := by
        simp [is_owned, htag]
      have ha1 : s.item.alloc = 1 := by rw [hit]; simp
      have hww :=
        wrapperWrite_owned sz
          { s with guard := WrapperState.alive, item := byteAdvance sz s.item }
          ⟨s.item, s.endp, is_owned s⟩ v hw
      dsimp only at hww
      obtain ⟨f1, f2, f3, f4, f5, f6, f7⟩ :=
        writePtr_fields sz
          { s with guard := WrapperState.alive, item := byteAdvance sz s.item }
          s.item v
      dsimp only at f1 f2 f3 f4 f5 f6 f7
      obtain ⟨j1, j2, j3, j4, j5, j6, j7, j8⟩ :=
        foldl_write_owned sz rest
          (wrapperWrite sz
            { s with guard := WrapperState.alive, item := byteAdvance sz s.item }
            ⟨s.item, s.endp, is_owned s⟩ v)
          (by rw [hww]; exact hw) (by rw [hww]; exact ha1)
      refine ⟨?_, rfl, ?_, ?_, ?_, ?_, ?_⟩
      · simp only [dropWrapper_ext]
        rw [j2, hww]
        exact (f7 (by omega)).trans hext
      · simp only [dropWrapper_isOwnedTag]
        rw [j4, hww, f2]
        simp [htag]
      · simp only [dropWrapper_cloneCount]
        rw [j5, hww, f3]
        simp [hcc]
      · simp only [dropWrapper_item]
        rw [j6, hww, f4]
        show byteAdvance sz s.item = _
        rw [hit, byteAdvance_eq]
        simp [hsucc]
      · simp only [dropWrapper_endp]
        rw [j7, hww, f5]
        show s.endp = _
        rw [hen]
        simp
      · intro _
        simp only [dropWrapper_ownedList]
        rw [j8, hww, f6]
        exact hol rfl

/-- Running a list of traversal steps from an invariant state: the
invariant advances, `b` becomes true as soon as any step writes, and the
sequence of `is_owned` values observed after each step is exactly the
expected prefix-of-writes trace. -/
theorem runSteps_inv_trace (sz : Nat) (l : List α) :
    ∀ (wss : List (List α)) (k : Nat) (b : Bool) (s : S α),
      stepInv sz l k b s → k + wss.length ≤ l.length →
      stepInv sz l (k + wss.length) (b || wss.any (fun ws => !ws.isEmpty))
          (runSteps sz s wss) ∧
        isOwnedTrace sz s wss = writeSeenList b wss := by
  intro wss
  induction wss with
  | nil =>
    intro k b s h _
    constructor
    · simpa using h
    · rfl
  | cons ws rest ih =>
    intro k b s h hlen
    simp only [List.length_cons] at hlen
    have h1 := runStep_inv sz l k b s ws h (by omega)
    have h2 := ih (k + 1) (b || !ws.isEmpty) (runStep sz s ws) h1 (by omega)
    constructor
    · have e1 : k + (ws :: rest).length = k + 1 + rest.length := by
        simp; omega
      have e2 : (b || (ws :: rest).any (fun w => !w.isEmpty)) =
          ((b || !ws.isEmpty) || rest.any (fun w => !w.isEmpty)) := by
        simp [Bool.or_assoc]
      rw [e1, e2]
      show stepInv sz l (k + 1 + rest.length) _ (runSteps sz (runStep sz s ws) rest)
      exact h2.1
    · show is_owned (runStep sz s ws) :: isOwnedTrace sz (runStep sz s ws) rest =
        (b || !ws.isEmpty) :: writeSeenList (b || !ws.isEmpty) rest
      have htag : is_owned (runStep sz s ws) = (b || !ws.isEmpty) :=
        h1.2.2.1
      rw [htag, h2.2]

/-- C1: over a borrowed container, a full traversal in which at least one
step writes (any number of writes through that step's handle, and any
writes through later handles) performs exactly one borrowed-to-owned
transition (the clone counter ends at exactly 1), `is_owned` ends true,
and the `is_owned` value observed after each step is false before the
first writing step and true from the first writing step onward. -/
theorem C1_exactly_one_transition_per_traversal (sz : Nat) (l : List α)
    (wss : List (List α)) (hlen : wss.length = l.length)
    (hany : wss.any (fun ws => !ws.isEmpty) = true) :
    (runTraversal sz (fromRef l) wss).cloneCount = 1 ∧
    is_owned (runTraversal sz (fromRef l) wss) = true ∧
    traversalTrace sz (fromRef l) wss = writeSeenList false wss := by
  have hinv : stepInv sz l 0 false
      { fromRef l with
          item := { alloc := curAlloc (fromRef l), off := 0 },
          endp := { alloc := curAlloc (fromRef l),
                    off := (curList (fromRef l)).length * max sz 1 } } := by
    refine ⟨rfl, rfl, rfl, rfl, ?_, ?_, ?_⟩
    · simp [fromRef, curAlloc]
    · simp [fromRef, curAlloc, curList]
    · intro h
      exact absurd h (by simp)
  obtain ⟨minv, mtrace⟩ :=
    runSteps_inv_trace sz l wss 0 false _ hinv (by omega)
  obtain ⟨m1, m2, m3, m4, m5, m6, m7⟩ := minv
  unfold runTraversal traversalTrace
  rw [iter_mut_dead sz (fromRef l) rfl]
  refine ⟨?_, ?_, ?_⟩
  · show (runSteps sz _ wss).cloneCount = 1
    rw [m4]
    simp [hany]
  · show is_owned (runSteps sz _ wss) = true
    unfold is_owned
    rw [m3]
    simp [hany]
  · show isOwnedTrace sz _ wss = _
    exact mtrace

/-- C1 witness: borrowed `[32, 33]`, a full traversal whose second step
writes 47: exactly one clone, `is_owned` ends true, and the per-step
ownership trace is `[false, true]`. -/
theorem C1_exactly_one_transition_per_traversal_witness :
    ([[], [47]] : List (List Nat)).length = ([32, 33] : List Nat).length ∧
    ([[], [47]] : List (List Nat)).any (fun ws => !ws.isEmpty) = true ∧
    (runTraversal 4 (fromRef [32, 33]) [[], [47]]).cloneCount = 1 ∧
    is_owned (runTraversal 4 (fromRef [32, 33]) [[], [47]]) = true ∧
    traversalTrace 4 (fromRef [32, 33]) [[], [47]] =
      writeSeenList false [[], [47]] := by
  have h := C1_exactly_one_transition_per_traversal 4 [32, 33] [[], [47]]
    (by decide) (by decide)
  exact ⟨by decide, by decide, h.1, h.2.1, h.2.2⟩

/-- A step with no writes only moves the cursor: contents, tag and clone
counter of both allocations are untouched, however the step ends. -/
theorem runStep_nil_pres (sz : Nat) (s : S α) :
    (runStep sz s []).ext = s.ext ∧
    (runStep sz s []).ownedList = s.ownedList ∧
    (runStep sz s []).isOwnedTag = s.isOwnedTag ∧
    (runStep sz s []).cloneCount = s.cloneCount ∧
    derefVec (runStep sz s []) = derefVec s := by
  unfold runStep
  by_cases hg : s.guard = WrapperState.dead
  · by_cases he : s.item = s.endp
    · rw [next_dead_stop sz s hg he]
      exact ⟨rfl, rfl, rfl, rfl, rfl⟩
    · rw [next_dead_yield sz s hg he]
      simp only [List.foldl_nil]
      exact ⟨rfl, rfl, rfl, rfl, rfl⟩
  · have hp : next sz s = Res.panic := by
      unfold next
      simp [hg]
    rw [hp]
    exact ⟨rfl, rfl, rfl, rfl, rfl⟩

/-- A traversal consisting only of read steps preserves contents, tag and
clone counter. -/
theorem runSteps_nil_pres (sz : Nat) :
    ∀ (wss : List (List α)), (∀ ws ∈ wss, ws = []) → ∀ (s : S α),
      (runSteps sz s wss).ext = s.ext ∧
      (runSteps sz s wss).ownedList = s.ownedList ∧
      (runSteps sz s wss).isOwnedTag = s.isOwnedTag ∧
      (runSteps sz s wss).cloneCount = s.cloneCount ∧
      derefVec (runSteps sz s wss) = derefVec s := by
  intro wss
  induction wss with
  | nil => intro _ s; exact ⟨rfl, rfl, rfl, rfl, rfl⟩
  | cons ws rest ih =>
    intro h s
    have hws : ws = [] := h ws (by simp)
    subst hws
    obtain ⟨p1, p2, p3, p4, p5⟩ := runStep_nil_pres sz s
    obtain ⟨q1, q2, q3, q4, q5⟩ :=
      ih (fun w hw => h w (by simp [hw])) (runStep sz s [])
    simp only [runSteps, List.foldl_cons] at q1 q2 q3 q4 q5 ⊢
    exact ⟨q1.trans p1, q2.trans p2, q3.trans p3, q4.trans p4, q5.trans p5⟩

/-- C7: read-only access never transitions.  Over a borrowed container, a
traversal of any length in which no step writes (handles are produced,
dereferenced read-only and released) leaves `is_owned` false, performs no
clone, and the read-only passthrough still shows the original external
vector. -/
theorem C7_read_only_never_transitions (sz : Nat) (l : List α)
    (wss : List (List α)) (hro : ∀ ws ∈ wss, ws = []) :
    is_owned (runTraversal sz (fromRef l) wss) = false ∧
    (runTraversal sz (fromRef l) wss).cloneCount = 0 ∧
    derefVec (runTraversal sz (fromRef l) wss) = l := by
  obtain ⟨q1, q2, q3, q4, q5⟩ := runSteps_nil_pres sz wss hro
    { fromRef l with
        item := { alloc := curAlloc (fromRef l), off := 0 },
        endp := { alloc := curAlloc (fromRef l),
                  off := (curList (fromRef l)).length * max sz 1 } }
  unfold runTraversal
  rw [iter_mut_dead sz (fromRef l) rfl]
  refine ⟨?_, ?_, ?_⟩
  · show is_owned (runSteps sz _ wss) = false
    exact q3
  · show (runSteps sz _ wss).cloneCount = 0
    exact q4
  · show derefVec (runSteps sz _ wss) = l
    exact q5

/-- C7 witness: a full no-write traversal of borrowed `[32, 33]` leaves the
container borrowed, with no clone, still exposing the original vector. -/
theorem C7_read_only_never_transitions_witness :
    (∀ ws ∈ ([[], []] : List (List Nat)), ws = []) ∧
    is_owned (runTraversal 4 (fromRef [32, 33]) [[], []]) = false ∧
    (runTraversal 4 (fromRef [32, 33]) [[], []]).cloneCount = 0 ∧
    derefVec (runTraversal 4 (fromRef [32, 33]) [[], []]) = [32, 33] := by
  have h := C7_read_only_never_transitions 4 [32, 33] [[], []] (by decide)
  exact ⟨by decide, h.1, h.2.1, h.2.2⟩

/-- C3: starting a new mutable traversal (`iter_mut`) while a previously
produced item wrapper has not been released, or calling `next` while the
wrapper it just produced is still alive (guard Alive), terminates
abnormally: both operations report a panic and return no value. -/
theorem C3_guard_violation_is_fatal (sz : Nat) (s : S α)
    (h : s.guard = WrapperState.alive) :
    iter_mut sz s = Res.panic ∧ next sz s = Res.panic := by
  constructor
  · unfold iter_mut
    simp [h]
  · unfold next
    simp [h]

/-- C3 witness: on a concrete borrowed container whose guard is Alive,
both `iter_mut` and `next` panic. -/
theorem C3_guard_violation_is_fatal_witness :
    iter_mut 4 { fromRef [32, 33] with guard := WrapperState.alive } = Res.panic ∧
    next 4 { fromRef [32, 33] with guard := WrapperState.alive } = Res.panic :=
  C3_guard_violation_is_fatal 4
    { fromRef [32, 33] with guard := WrapperState.alive } rfl

/-! ### Frame property: the external vector is never written -/

theorem ensure_owned_ext (s : S α) : (ensure_owned s).ext = s.ext := by
  unfold ensure_owned
  split
  · rfl
  · rfl

theorem ensure_owned_tag (s : S α) : (ensure_owned s).isOwnedTag = true := by
  unfold ensure_owned
  split
  · assumption
  · rfl

/-- One traversal step never writes the external vector and preserves the
allocation sanity of the cursor. -/
theorem runStep_ext_pres (sz : Nat) (s : S α) (ws : List α) (h : pInv s) :
    (runStep sz s ws).ext = s.ext ∧ pInv (runStep sz s ws) := by
  unfold runStep
  by_cases hg : s.guard = WrapperState.dead
  · by_cases he : s.item = s.endp
    · rw [next_dead_stop sz s hg he]
      exact ⟨rfl, h⟩
    · rw [next_dead_yield sz s hg he]
      dsimp only
      cases ws with
      | nil =>
        simp only [List.foldl_nil]
        refine ⟨rfl, ?_⟩
        intro ht
        obtain ⟨h1, h2⟩ := h ht
        exact ⟨by rw [byteAdvance_eq]; exact h1, h2⟩
      | cons v rest =>
        simp only [List.foldl_cons]
        cases htag : s.isOwnedTag with
        | false =>
          have hw : (⟨s.item, s.endp, is_owned s⟩ : ItemWrapper).owned = false := by
            simp [is_owned, htag]
          have hww :=
            wrapperWrite_not_owned sz
              { s with guard := WrapperState.alive, item := byteAdvance sz s.item }
              ⟨s.item, s.endp, is_owned s⟩ v hw htag
          obtain ⟨j1, j2, j3, j4, j5, j6, j7, j8⟩ :=
            foldl_write_owned sz rest
              (wrapperWrite sz
                { s with guard := WrapperState.alive, item := byteAdvance sz s.item }
                ⟨s.item, s.endp, is_owned s⟩ v)
              (by rw [hww]) (by rw [hww])
          rw [htag] at j2 j6 j7 hww
          refine ⟨?_, ?_⟩
          · simp only [dropWrapper_ext]
            rw [j2, hww]
          · intro _
            constructor
            · simp only [dropWrapper_item]
              rw [j6, hww]
            · simp only [dropWrapper_endp]
              rw [j7, hww]
        | true =>
          obtain ⟨ha1, ha2⟩ := h htag
          have hw : (⟨s.item, s.endp, is_owned s⟩ : ItemWrapper).owned = true := by
            simp [is_owned, htag]
          have hww :=
            wrapperWrite_owned sz
              { s with guard := WrapperState.alive, item := byteAdvance sz s.item }
              ⟨s.item, s.endp, is_owned s⟩ v hw
          dsimp only at hww
          obtain ⟨f1, f2, f3, f4, f5, f6, f7⟩ :=
            writePtr_fields sz
              { s with guard := WrapperState.alive, item := byteAdvance sz s.item }
              s.item v
          obtain ⟨j1, j2, j3, j4, j5, j6, j7, j8⟩ :=
            foldl_write_owned sz rest
              (wrapperWrite sz
                { s with guard := WrapperState.alive, item := byteAdvance sz s.item }
                ⟨s.item, s.endp, is_owned s⟩ v)
              (by rw [hww]; exact hw) (by rw [hww]; exact ha1)
          rw [htag] at j2 j6 j7 hww f4 f5 f7
          refine ⟨?_, ?_⟩
          · simp only [dropWrapper_ext]
            rw [j2, hww]
            exact f7 (by omega)
          · intro _
            constructor
            · simp only [dropWrapper_item]
              rw [j6, hww, f4]
              show (byteAdvance sz s.item).alloc = 1
              rw [byteAdvance_eq]
              exact ha1
            · simp only [dropWrapper_endp]
              rw [j7, hww, f5]
              exact ha2
  · have hp : next sz s = Res.panic := by
      unfold next
      simp [hg]
    rw [hp]
    exact ⟨rfl, h⟩

/-- Traversal steps never write the external vector. -/
theorem runSteps_ext_pres (sz : Nat) :
    ∀ (wss : List (List α)) (s : S α), pInv s →
      (runSteps sz s wss).ext = s.ext ∧ pInv (runSteps sz s wss) := by
  intro wss
  induction wss with
  | nil => intro s h; exact ⟨rfl, h⟩
  | cons ws rest ih =>
    intro s h
    obtain ⟨p1, p2⟩ := runStep_ext_pres sz s ws h
    obtain ⟨q1, q2⟩ := ih (runStep sz s ws) p2
    simp only [runSteps, List.foldl_cons] at q1 q2 ⊢
    exact ⟨q1.trans p1, q2⟩

/-- A whole mutable traversal never writes the external vector, from any
starting state. -/
theorem runTraversal_ext (sz : Nat) (s : S α) (wss : List (List α)) :
    (runTraversal sz s wss).ext = s.ext := by
  unfold runTraversal
  by_cases hg : s.guard = WrapperState.dead
  · rw [iter_mut_dead sz s hg]
    have hp : pInv
        { s with
            item := { alloc := curAlloc s, off := 0 },
            endp := { alloc := curAlloc s,
                      off := (curList s).length * max sz 1 } } := by
      intro ht
      have : curAlloc s = 1 := by
        unfold curAlloc
        have : s.isOwnedTag = true := ht
        simp [this]
      exact ⟨this, this⟩
    obtain ⟨q1, _⟩ := runSteps_ext_pres sz wss _ hp
    exact q1
  · have hp : iter_mut sz s = Res.panic := by
      unfold iter_mut
      simp [hg]
    rw [hp]

/-- The borrowed-case bulk-visit loop never writes the external vector. -/
theorem fastLoopBorrowed_ext [Inhabited α] (sz : Nat) (g : α → Option α) :
    ∀ (fuel : Nat) (s : S α) (itemP endB : Ptr),
      (is_owned s = true → itemP.alloc = 1) →
      (fastLoopBorrowed sz g fuel s itemP endB).1.ext = s.ext := by
  intro fuel
  induction fuel with
  | zero => intro s itemP endB _; rfl
  | succ n ih =>
    intro s itemP endB h
    by_cases he : itemP = endB
    · simp [fastLoopBorrowed, he]
    · simp only [fastLoopBorrowed, he, if_false]
      cases hgv : g (readPtr sz s itemP) with
      | none =>
        exact ih s (byteAdvance sz itemP) endB
          (fun ht => by rw [byteAdvance_eq]; exact h ht)
      | some v2 =>
        have ha2 : curAlloc (ensure_owned s) = 1 := by
          unfold curAlloc
          simp [ensure_owned_tag]
        by_cases ho : is_owned s
        · simp only [ho, if_true]
          have ha : itemP.alloc = 1 := h ho
          refine (ih _ _ _ ?_).trans ?_
          · intro _
            rw [byteAdvance_eq]
            exact ha
          · exact (writePtr_fields sz s itemP v2).2.2.2.2.2.2
              (by rw [ha]; omega)
        · simp only [ho, if_false]
          refine (ih _ _ _ ?_).trans ?_
          · intro _
            rw [byteAdvance_eq]
            exact ha2
          · refine ((writePtr_fields sz _ _ v2).2.2.2.2.2.2 ?_).trans
              (ensure_owned_ext s)
            show curAlloc (ensure_owned s) ≠ 0
            rw [ha2]
            omega

/-- The owned-case bulk-visit loop never writes the external vector (its
local pointer stays inside the owned allocation). -/
theorem fastLoopOwned_ext [Inhabited α] (sz : Nat) (g : α → Option α) :
    ∀ (fuel : Nat) (s : S α) (itemP endB : Ptr), itemP.alloc = 1 →
      (fastLoopOwned sz g fuel s itemP endB).1.ext = s.ext := by
  intro fuel
  induction fuel with
  | zero => intro s itemP endB _; rfl
  | succ n ih =>
    intro s itemP endB ha
    by_cases he : itemP = endB
    · simp [fastLoopOwned, he]
    · simp only [fastLoopOwned, he, if_false]
      cases hgv : g (readPtr sz s itemP) with
      | none =>
        exact ih s (byteAdvance sz itemP) endB (by rw [byteAdvance_eq]; exact ha)
      | some v2 =>
        refine (ih _ _ _ (by rw [byteAdvance_eq]; exact ha)).trans ?_
        exact (writePtr_fields sz s itemP v2).2.2.2.2.2.2 (by rw [ha]; omega)

/-- A bulk visit (`fast_for_each_mut`) never writes the external vector. -/
theorem fast_for_each_mut_ext [Inhabited α] (sz : Nat) (s : S α)
    (g : α → Option α) : (fast_for_each_mut sz s g).1.ext = s.ext := by
  unfold fast_for_each_mut
  by_cases ho : is_owned s
  · simp only [ho, not_true, if_false]
    apply fastLoopOwned_ext
    show curAlloc s = 1
    have htag : s.isOwnedTag = true := ho
    unfold curAlloc
    simp [htag]
  · simp only [ho, not_false_iff, if_true]
    apply fastLoopBorrowed_ext
    intro hcon
    exact absurd hcon ho

/-- One public operation never writes the external vector. -/
theorem runOp_ext [Inhabited α] (sz : Nat) (s : S α) (op : Op α) :
    (runOp sz s op).ext = s.ext := by
  cases op with
  | traversal wss => exact runTraversal_ext sz s wss
  | ensureOwnedOp => exact ensure_owned_ext s
  | bulkVisit g => exact fast_for_each_mut_ext sz s g

/-- C6: for a container borrowing the external vector `l`, any sequence of
operations performed through the container — mutable traversals with
arbitrary writes through the yielded handles, forced `ensure_owned`, and
bulk visits with arbitrary callbacks — leaves the external vector's
contents exactly `l` afterward.  (Reads — `derefVec`, `wrapperDeref`,
`into_owned` — are pure functions of the state and modify nothing by
construction.) -/
theorem C6_external_vector_never_modified [Inhabited α] (sz : Nat)
    (l : List α) (ops : List (Op α)) :
    (runOps sz (fromRef l) ops).ext = l := by
  suffices h : ∀ (ops : List (Op α)) (s : S α), (runOps sz s ops).ext = s.ext by
    exact (h ops (fromRef l)).trans rfl
  intro ops
  induction ops with
  | nil => intro s; rfl
  | cons op rest ih =>
    intro s
    simp only [runOps, List.foldl_cons] at ih ⊢
    exact (ih (runOp sz s op)).trans (runOp_ext sz s op)

/-- C4: evaluation of the model at the failing input.  With a previously
produced wrapper still alive (guard Alive), `next` fails fatally, but
`nth` performs no guard check: it yields a second wrapper and leaves the
guard untouched; moreover `nth` called with the guard Dead does not mark
the guard Alive, so a subsequent `next` would not detect the outstanding
wrapper.  This contradicts the claimed (and documented) equivalence with
the safety-guard behaviour of repeated `next`. -/
theorem C4_nth_performs_no_guard_bookkeeping :
    next 4 c4Alive = Res.panic ∧
    (nth 4 c4Alive 0).2 =
      some { item := { alloc := 0, off := 4 },
             endp := { alloc := 0, off := 8 }, owned := false } ∧
    (nth 4 c4Alive 0).1.guard = WrapperState.alive ∧
    (nth 4 { c4Alive with guard := WrapperState.dead } 0).1.guard =
      WrapperState.dead := by
  decide

/-- C10: releasing (dropping) an item wrapper sets the guard to Dead
unconditionally, whatever its prior state and whichever wrapper set it
Alive; and `nth` never changes the guard itself, so a wrapper it produced
never set the guard Alive, yet dropping that wrapper still resets the
guard to Dead even while a `next`-produced wrapper is outstanding. -/
theorem C10_drop_resets_guard_unconditionally (sz : Nat) (s : S α) (n : Nat) :
    (dropWrapper s).guard = WrapperState.dead ∧
    (nth sz s n).1.guard = s.guard := by
  refine ⟨rfl, ?_⟩
  unfold nth
  by_cases hn : n ≥ (s.endp.off - s.item.off) / max sz 1
  · simp [hn]
  · simp [hn]

/-- C2: first write through a wrapper created while storage was borrowed.
Writing `v` relocates after `ensure_owned`: the traversal end becomes the
new storage pointer plus the length (in bytes, element size floored to 1
for zero-sized types), the handle's position becomes the new end minus its
recorded byte distance from the end, the shared cursor is advanced to
exactly one element past the handle's recomputed position, and the handle
is marked owned, so a later write `v2` through the same handle skips the
relocation entirely (no further clone, no pointer change). -/
theorem C2_relocation_after_first_write (sz : Nat) (s : S α)
    (w : ItemWrapper) (v v2 : α) (k : Nat)
    (hb : s.isOwnedTag = false) (hw : w.owned = false)
    (hd : w.endp.off - w.item.off = k * max sz 1) :
    ((wrapperWrite sz s w v).1.isOwnedTag = true ∧
      (wrapperWrite sz s w v).1.cloneCount = s.cloneCount + 1) ∧
    (wrapperWrite sz s w v).1.endp =
      { alloc := 1, off := s.ext.length * max sz 1 } ∧
    (wrapperWrite sz s w v).2.item =
      { alloc := 1, off := s.ext.length * max sz 1 - k * max sz 1 } ∧
    (wrapperWrite sz s w v).1.item =
      { alloc := 1,
        off := (s.ext.length * max sz 1 - k * max sz 1) + max sz 1 } ∧
    ((wrapperWrite sz s w v).2.owned = true ∧
      (wrapperWrite sz s w v).2.endp = (wrapperWrite sz s w v).1.endp) ∧
    ((wrapperWrite sz (wrapperWrite sz s w v).1 (wrapperWrite sz s w v).2 v2).2 =
        (wrapperWrite sz s w v).2 ∧
      (wrapperWrite sz (wrapperWrite sz s w v).1 (wrapperWrite sz s w v).2 v2).1.item =
        (wrapperWrite sz s w v).1.item ∧
      (wrapperWrite sz (wrapperWrite sz s w v).1 (wrapperWrite sz s w v).2 v2).1.endp =
        (wrapperWrite sz s w v).1.endp ∧
      (wrapperWrite sz (wrapperWrite sz s w v).1 (wrapperWrite sz s w v).2 v2).1.cloneCount =
        (wrapperWrite sz s w v).1.cloneCount ∧
      (wrapperWrite sz (wrapperWrite sz s w v).1 (wrapperWrite sz s w v).2 v2).1.isOwnedTag =
        true) := by
  have hww := wrapperWrite_not_owned sz s w v hw hb
  rw [hd, mul_div_max] at hww
  have e2 : (s.ext.length - k) * max sz 1 =
      s.ext.length * max sz 1 - k * max sz 1 := Nat.sub_mul _ _ _
  have e1 : (s.ext.length - k + 1) * max sz 1 =
      s.ext.length * max sz 1 - k * max sz 1 + max sz 1 := by
    rw [Nat.add_mul, Nat.sub_mul, one_mul]
  refine ⟨⟨by simp [hww], by simp [hww]⟩, by simp [hww],
    by simp [hww, e2], by simp [hww, e1], ⟨by simp [hww], by simp [hww]⟩,
    ?_, ?_, ?_, ?_, ?_⟩ <;>
    simp [hww, wrapperWrite_owned, writePtr_one, e1, e2]

/-- C2 witness: writing 99 through `c2W` relocates onto the owned clone of
`[10, 20, 30]`: end becomes byte 12 of allocation 1, the handle lands on
byte 4 (element 1), the cursor on byte 8 (element 2), and a second write
of 77 performs no further clone. -/
theorem C2_relocation_after_first_write_witness :
    c2S.isOwnedTag = false ∧ c2W.owned = false ∧
    c2W.endp.off - c2W.item.off = 2 * max 4 1 ∧
    (wrapperWrite 4 c2S c2W 99).1.isOwnedTag = true ∧
    (wrapperWrite 4 c2S c2W 99).1.cloneCount = 1 ∧
    (wrapperWrite 4 c2S c2W 99).1.endp = { alloc := 1, off := 12 } ∧
    (wrapperWrite 4 c2S c2W 99).2.item = { alloc := 1, off := 4 } ∧
    (wrapperWrite 4 c2S c2W 99).1.item = { alloc := 1, off := 8 } ∧
    (wrapperWrite 4 c2S c2W 99).2.owned = true ∧
    (wrapperWrite 4 (wrapperWrite 4 c2S c2W 99).1
        (wrapperWrite 4 c2S c2W 99).2 77).1.cloneCount = 1 := by
  have h := C2_relocation_after_first_write 4 c2S c2W 99 77 2 rfl rfl (by decide)
  exact ⟨rfl, rfl, by decide, h.1.1, h.1.2, h.2.1, h.2.2.1, h.2.2.2.1,
    h.2.2.2.2.1.1, (h.2.2.2.2.2.2.2.2.1).trans h.1.2⟩

/-! ### The internal for-each and its safety check placement -/

/-- With the guard Dead at entry, the source's for-each loop (no checks
inside the loop) behaves exactly like the loop that re-applies the safety
check before producing every per-element handle: nothing inside the loop
can set the guard Alive, so all later checks pass. -/
theorem forEachLoop_eq_perElem [Inhabited α] (sz : Nat) (g : α → Option α) :
    ∀ (fuel : Nat) (s : S α), s.guard = WrapperState.dead →
      forEachPerElemLoop sz g fuel s = Res.ok (forEachLoop sz g fuel s) := by
  intro fuel
  induction fuel with
  | zero => intro s h; rfl
  | succ n ih =>
    intro s h
    by_cases he : s.item = s.endp
    · simp [forEachPerElemLoop, forEachLoop, he]
    · simp only [forEachPerElemLoop, forEachLoop, he, if_false, h,
        ne_eq, not_true_eq_false]
      rw [ih _ rfl]

/-- C5 counterexample: the source's for-each applies the safety check once
at loop entry, not before each per-element handle.  On a traversal with
zero elements remaining and the previous handle still alive, a
per-element check would produce no handle and hence never check (the loop
body is never entered), returning normally with an empty trace — but the
source's `for_each` panics.  The two disagree, so the claim as stated is
false of the code. -/
theorem C5_for_each_checks_only_at_entry :
    for_each 4 c5S (fun v => some (v + 1)) = Res.panic ∧
    forEachPerElem 4 c5S (fun v => some (v + 1)) = Res.ok (c5S, []) ∧
    for_each 4 c5S (fun v => some (v + 1)) ≠
      forEachPerElem 4 c5S (fun v => some (v + 1)) := by
  refine ⟨rfl, rfl, ?_⟩
  intro hcon
  exact Res.noConfusion (hcon.trans rfl)

/-- C5 amended: the internal for-each applies the safety check once at
loop entry — failing fatally when a previously produced handle is still
alive, even when zero elements remain — and produces its per-element
handles with no further checks; whenever the guard is Dead at entry this
coincides exactly with applying the per-step check of `next` before every
element, because nothing inside the loop can set the guard Alive. -/
theorem C5_for_each_entry_check_suffices [Inhabited α] (sz : Nat) (s : S α)
    (g : α → Option α) :
    (s.guard = WrapperState.alive → for_each sz s g = Res.panic) ∧
    (s.guard = WrapperState.dead →
      for_each sz s g = forEachPerElem sz s g) := by
  constructor
  · intro h
    unfold for_each
    simp [h]
  · intro h
    unfold for_each forEachPerElem
    simp only [h, ne_eq, not_true_eq_false, if_false]
    exact (forEachLoop_eq_perElem sz g _ s h).symm

/-- C5 witness: on a concrete guard-Dead state, the source's for-each and
the per-element-checked variant agree. -/
theorem C5_for_each_entry_check_suffices_witness :
    for_each 4 { c5S with guard := WrapperState.dead } (fun v => some (v + 1)) =
      forEachPerElem 4 { c5S with guard := WrapperState.dead }
        (fun v => some (v + 1)) :=
  (C5_for_each_entry_check_suffices 4
    { c5S with guard := WrapperState.dead } (fun v => some (v + 1))).2 rfl

/-! ### Equivalence of the two traversal forms -/

@[simp] theorem cursorAdvance_ext (sz : Nat) (s : S α) :
    (cursorAdvance sz s).ext = s.ext := rfl

@[simp] theorem cursorAdvance_ownedList (sz : Nat) (s : S α) :
    (cursorAdvance sz s).ownedList = s.ownedList := rfl

@[simp] theorem cursorAdvance_isOwnedTag (sz : Nat) (s : S α) :
    (cursorAdvance sz s).isOwnedTag = s.isOwnedTag := rfl

@[simp] theorem cursorAdvance_cloneCount (sz : Nat) (s : S α) :
    (cursorAdvance sz s).cloneCount = s.cloneCount := rfl

@[simp] theorem cursorAdvance_item (sz : Nat) (s : S α) :
    (cursorAdvance sz s).item = byteAdvance sz s.item := rfl

@[simp] theorem cursorAdvance_endp (sz : Nat) (s : S α) :
    (cursorAdvance sz s).endp = s.endp := rfl

@[simp] theorem cursorAdvance_guard (sz : Nat) (s : S α) :
    (cursorAdvance sz s).guard = s.guard := rfl

theorem ensure_owned_guard (s : S α) : (ensure_owned s).guard = s.guard := by
  unfold ensure_owned
  split
  · rfl
  · rfl

theorem ensure_owned_item (s : S α) : (ensure_owned s).item = s.item := by
  unfold ensure_owned
  split
  · rfl
  · rfl

theorem ensure_owned_endp (s : S α) : (ensure_owned s).endp = s.endp := by
  unfold ensure_owned
  split
  · rfl
  · rfl

theorem ensure_owned_borrowed (s : S α) (h : s.isOwnedTag = false) :
    ensure_owned s =
      { s with ownedList := s.ext, isOwnedTag := true,
               cloneCount := s.cloneCount + 1 } := by
  unfold ensure_owned
  simp [h]

/-- Reads depend only on the two allocations. -/
theorem readPtr_congr [Inhabited α] (sz : Nat) (s t : S α) (p : Ptr)
    (h1 : s.ext = t.ext) (h2 : s.ownedList = t.ownedList) :
    readPtr sz s p = readPtr sz t p := by
  unfold readPtr allocList
  rw [h1, h2]

/-- Writes act identically on states with identical allocations. -/
theorem writePtr_congr (sz : Nat) (s t : S α) (p : Ptr) (v : α)
    (h1 : s.ext = t.ext) (h2 : s.ownedList = t.ownedList) :
    (writePtr sz s p v).ext = (writePtr sz t p v).ext ∧
    (writePtr sz s p v).ownedList = (writePtr sz t p v).ownedList := by
  unfold writePtr
  by_cases h0 : p.alloc = 0
  · simp [h0, h1, h2]
  · by_cases hp1 : p.alloc = 1 <;> simp [h0, hp1, h1, h2]

/-- A raw store preserves the length of the current sequence. -/
theorem curList_writePtr_length (sz : Nat) (s : S α) (p : Ptr) (v : α) :
    (curList (writePtr sz s p v)).length = (curList s).length := by
  unfold curList writePtr
  by_cases h0 : p.alloc = 0
  · by_cases ht : s.isOwnedTag <;> simp [h0, ht]
  · by_cases hp1 : p.alloc = 1 <;> by_cases ht : s.isOwnedTag <;>
      simp [h0, hp1, ht]

theorem forEachLoop_stop [Inhabited α] (sz : Nat) (g : α → Option α)
    (fuel : Nat) (s : S α) (he : s.item = s.endp) :
    forEachLoop sz g fuel s = (s, []) := by
  cases fuel with
  | zero => rfl
  | succ n => simp [forEachLoop, he]

theorem fastLoopBorrowed_stop [Inhabited α] (sz : Nat) (g : α → Option α)
    (fuel : Nat) (s : S α) (itemP endB : Ptr) (he : itemP = endB) :
    fastLoopBorrowed sz g fuel s itemP endB = (s, []) := by
  cases fuel with
  | zero => rfl
  | succ n => simp [fastLoopBorrowed, he]

theorem fastLoopOwned_stop [Inhabited α] (sz : Nat) (g : α → Option α)
    (fuel : Nat) (s : S α) (itemP endB : Ptr) (he : itemP = endB) :
    fastLoopOwned sz g fuel s itemP endB = (s, []) := by
  cases fuel with
  | zero => rfl
  | succ n => simp [fastLoopOwned, he]

theorem forEachLoop_step_none [Inhabited α] (sz : Nat) (g : α → Option α)
    (fuel : Nat) (s : S α) (hne : s.item ≠ s.endp)
    (hg : g (readPtr sz s s.item) = none) :
    forEachLoop sz g (fuel + 1) s =
      ((forEachLoop sz g fuel (dropWrapper (cursorAdvance sz s))).1,
        readPtr sz s s.item ::
          (forEachLoop sz g fuel (dropWrapper (cursorAdvance sz s))).2) := by
  have h0 : forEachLoop sz g (fuel + 1) s =
      ((forEachLoop sz g fuel (dropWrapper
          (match g (readPtr sz s s.item) with
           | none => cursorAdvance sz s
           | some v2 => (wrapperWrite sz (cursorAdvance sz s)
               { item := s.item, endp := s.endp, owned := is_owned s } v2).1))).1,
        readPtr sz s s.item ::
          (forEachLoop sz g fuel (dropWrapper
            (match g (readPtr sz s s.item) with
             | none => cursorAdvance sz s
             | some v2 => (wrapperWrite sz (cursorAdvance sz s)
                 { item := s.item, endp := s.endp, owned := is_owned s } v2).1))).2) := by
    simp only [forEachLoop]
    rw [if_neg hne]
    rfl
  rw [h0, hg]

theorem forEachLoop_step_some [Inhabited α] (sz : Nat) (g : α → Option α)
    (fuel : Nat) (s : S α) (v2 : α) (hne : s.item ≠ s.endp)
    (hg : g (readPtr sz s s.item) = some v2) :
    forEachLoop sz g (fuel + 1) s =
      ((forEachLoop sz g fuel (dropWrapper
          (wrapperWrite sz (cursorAdvance sz s)
            { item := s.item, endp := s.endp, owned := is_owned s } v2).1)).1,
        readPtr sz s s.item ::
          (forEachLoop sz g fuel (dropWrapper
            (wrapperWrite sz (cursorAdvance sz s)
              { item := s.item, endp := s.endp, owned := is_owned s } v2).1)).2) := by
  have h0 : forEachLoop sz g (fuel + 1) s =
      ((forEachLoop sz g fuel (dropWrapper
          (match g (readPtr sz s s.item) with
           | none => cursorAdvance sz s
           | some v2 => (wrapperWrite sz (cursorAdvance sz s)
               { item := s.item, endp := s.endp, owned := is_owned s } v2).1))).1,
        readPtr sz s s.item ::
          (forEachLoop sz g fuel (dropWrapper
            (match g (readPtr sz s s.item) with
             | none => cursorAdvance sz s
             | some v2 => (wrapperWrite sz (cursorAdvance sz s)
                 { item := s.item, endp := s.endp, owned := is_owned s } v2).1))).2) := by
    simp only [forEachLoop]
    rw [if_neg hne]
    rfl
  rw [h0, hg]

theorem fastLoopBorrowed_step_none [Inhabited α] (sz : Nat)
    (g : α → Option α) (fuel : Nat) (s : S α) (itemP endB : Ptr)
    (hne : itemP ≠ endB) (hg : g (readPtr sz s itemP) = none) :
    fastLoopBorrowed sz g (fuel + 1) s itemP endB =
      ((fastLoopBorrowed sz g fuel s (byteAdvance sz itemP) endB).1,
        readPtr sz s itemP ::
          (fastLoopBorrowed sz g fuel s (byteAdvance sz itemP) endB).2) := by
  simp only [fastLoopBorrowed]
  rw [if_neg hne, hg]

theorem fastLoopBorrowed_step_write_owned [Inhabited α] (sz : Nat)
    (g : α → Option α) (fuel : Nat) (s : S α) (itemP endB : Ptr) (v2 : α)
    (hne : itemP ≠ endB) (hg : g (readPtr sz s itemP) = some v2)
    (ho : is_owned s = true) :
    fastLoopBorrowed sz g (fuel + 1) s itemP endB =
      ((fastLoopBorrowed sz g fuel (writePtr sz s itemP v2)
          (byteAdvance sz itemP) endB).1,
        readPtr sz s itemP ::
          (fastLoopBorrowed sz g fuel (writePtr sz s itemP v2)
            (byteAdvance sz itemP) endB).2) := by
  simp only [fastLoopBorrowed]
  rw [if_neg hne, hg]
  simp only [ho, if_true]

theorem fastLoopBorrowed_step_write_borrowed [Inhabited α] (sz : Nat)
    (g : α → Option α) (fuel : Nat) (s : S α) (itemP endB : Ptr) (v2 : α)
    (hne : itemP ≠ endB) (hg : g (readPtr sz s itemP) = some v2)
    (ho : is_owned s = false) :
    fastLoopBorrowed sz g (fuel + 1) s itemP endB =
      ((fastLoopBorrowed sz g fuel
          (writePtr sz (ensure_owned s)
            { alloc := curAlloc (ensure_owned s),
              off := (0 + (curList (ensure_owned s)).length * max sz 1)
                - (endB.off - itemP.off) } v2)
          (byteAdvance sz
            { alloc := curAlloc (ensure_owned s),
              off := (0 + (curList (ensure_owned s)).length * max sz 1)
                - (endB.off - itemP.off) })
          { alloc := curAlloc (ensure_owned s),
            off := 0 + (curList (ensure_owned s)).length * max sz 1 }).1,
        readPtr sz s itemP ::
          (fastLoopBorrowed sz g fuel
            (writePtr sz (ensure_owned s)
              { alloc := curAlloc (ensure_owned s),
                off := (0 + (curList (ensure_owned s)).length * max sz 1)
                  - (endB.off - itemP.off) } v2)
            (byteAdvance sz
              { alloc := curAlloc (ensure_owned s),
                off := (0 + (curList (ensure_owned s)).length * max sz 1)
                  - (endB.off - itemP.off) })
            { alloc := curAlloc (ensure_owned s),
              off := 0 + (curList (ensure_owned s)).length * max sz 1 }).2) := by
  simp only [fastLoopBorrowed]
  rw [if_neg hne, hg]
  simp only [ho, Bool.false_eq_true, if_false]
  rfl

theorem fastLoopOwned_step [Inhabited α] (sz : Nat) (g : α → Option α)
    (fuel : Nat) (s : S α) (itemP endB : Ptr) (hne : itemP ≠ endB) :
    fastLoopOwned sz g (fuel + 1) s itemP endB =
      ((fastLoopOwned sz g fuel
          (match g (readPtr sz s itemP) with
           | none => s
           | some v2 => writePtr sz s itemP v2)
          (byteAdvance sz itemP) endB).1,
        readPtr sz s itemP ::
          (fastLoopOwned sz g fuel
            (match g (readPtr sz s itemP) with
             | none => s
             | some v2 => writePtr sz s itemP v2)
            (byteAdvance sz itemP) endB).2) := by
  simp only [fastLoopOwned]
  rw [if_neg hne]

/-- The for-each loop leaves the guard Dead if it was Dead at entry. -/
theorem forEachLoop_guard [Inhabited α] (sz : Nat) (g : α → Option α) :
    ∀ (fuel : Nat) (s : S α), s.guard = WrapperState.dead →
      (forEachLoop sz g fuel s).1.guard = WrapperState.dead := by
  intro fuel
  induction fuel with
  | zero => intro s h; exact h
  | succ n ih =>
    intro s h
    by_cases he : s.item = s.endp
    · rw [forEachLoop_stop sz g _ s he]
      exact h
    · simp only [forEachLoop, he, if_false]
      exact ih _ rfl

/-- The borrowed-case bulk-visit loop never touches the guard. -/
theorem fastLoopBorrowed_guard [Inhabited α] (sz : Nat) (g : α → Option α) :
    ∀ (fuel : Nat) (s : S α) (itemP endB : Ptr),
      (fastLoopBorrowed sz g fuel s itemP endB).1.guard = s.guard := by
  intro fuel
  induction fuel with
  | zero => intro s itemP endB; rfl
  | succ n ih =>
    intro s itemP endB
    by_cases he : itemP = endB
    · rw [fastLoopBorrowed_stop sz g _ s itemP endB he]
    · simp only [fastLoopBorrowed, he, if_false]
      cases hgv : g (readPtr sz s itemP) with
      | none => exact ih s _ _
      | some v2 =>
        by_cases ho : is_owned s
        · simp only [ho, if_true]
          exact (ih _ _ _).trans (writePtr_guard sz s itemP v2)
        · simp only [ho, if_false]
          exact (ih _ _ _).trans
            ((writePtr_guard sz _ _ v2).trans (ensure_owned_guard s))

/-- The owned-case bulk-visit loop never touches the guard. -/
theorem fastLoopOwned_guard [Inhabited α] (sz : Nat) (g : α → Option α) :
    ∀ (fuel : Nat) (s : S α) (itemP endB : Ptr),
      (fastLoopOwned sz g fuel s itemP endB).1.guard = s.guard := by
  intro fuel
  induction fuel with
  | zero => intro s itemP endB; rfl
  | succ n ih =>
    intro s itemP endB
    by_cases he : itemP = endB
    · rw [fastLoopOwned_stop sz g _ s itemP endB he]
    · simp only [fastLoopOwned, he, if_false]
      cases hgv : g (readPtr sz s itemP) with
      | none => exact ih s _ _
      | some v2 => exact (ih _ _ _).trans (writePtr_guard sz s itemP v2)

theorem curAlloc_writePtr (sz : Nat) (s : S α) (p : Ptr) (v : α) :
    curAlloc (writePtr sz s p v) = curAlloc s := by
  unfold curAlloc
  rw [(writePtr_fields sz s p v).2.1]

/-- Bisimulation between the for-each loop of the mutable iterator and the
borrowed-case loop of `fast_for_each_mut`, stepping with the same fuel:
from matching states (same allocations, tag, clone counter; iterator
cursor equal to the bulk loop's local pointers; `n` elements remaining)
the two loops produce the same allocations, tag, clone counter and
callback trace. -/
theorem borrowed_loop_bisim [Inhabited α] (sz : Nat) (g : α → Option α) :
    ∀ (fuel n : Nat) (sI sF : S α) (itemP endB : Ptr),
      sI.ext = sF.ext → sI.ownedList = sF.ownedList →
      sI.isOwnedTag = sF.isOwnedTag → sI.cloneCount = sF.cloneCount →
      sI.guard = WrapperState.dead →
      sI.item = itemP → sI.endp = endB →
      itemP = { alloc := curAlloc sF,
                off := ((curList sF).length - n) * max sz 1 } →
      endB = { alloc := curAlloc sF,
               off := (curList sF).length * max sz 1 } →
      n ≤ (curList sF).length →
      ((forEachLoop sz g fuel sI).1.ext =
          (fastLoopBorrowed sz g fuel sF itemP endB).1.ext ∧
        (forEachLoop sz g fuel sI).1.ownedList =
          (fastLoopBorrowed sz g fuel sF itemP endB).1.ownedList ∧
        (forEachLoop sz g fuel sI).1.isOwnedTag =
          (fastLoopBorrowed sz g fuel sF itemP endB).1.isOwnedTag ∧
        (forEachLoop sz g fuel sI).1.cloneCount =
          (fastLoopBorrowed sz g fuel sF itemP endB).1.cloneCount ∧
        (forEachLoop sz g fuel sI).2 =
          (fastLoopBorrowed sz g fuel sF itemP endB).2) := by
  intro fuel
  induction fuel with
  | zero =>
    intro n sI sF itemP endB h1 h2 h3 h4 h5 h6 h7 h8 h9 hnL
    exact ⟨h1, h2, h3, h4, rfl⟩
  | succ f ih =>
    intro n sI sF itemP endB h1 h2 h3 h4 h5 h6 h7 h8 h9 hnL
    have hm := max_sz_pos sz
    by_cases hn0 : n = 0
    · subst hn0
      have hie : itemP = endB := by rw [h8, h9]; simp
      have hieI : sI.item = sI.endp := by rw [h6, h7, hie]
      rw [forEachLoop_stop sz g _ sI hieI,
        fastLoopBorrowed_stop sz g _ sF itemP endB hie]
      exact ⟨h1, h2, h3, h4, rfl⟩
    · have hne : itemP ≠ endB := by
        rw [h8, h9]
        intro hcon
        have hoff : ((curList sF).length - n) * max sz 1 =
            (curList sF).length * max sz 1 := congrArg Ptr.off hcon
        have := Nat.eq_of_mul_eq_mul_right hm hoff
        omega
      have hneI : sI.item ≠ sI.endp := by rw [h6, h7]; exact hne
      have hval : readPtr sz sI sI.item = readPtr sz sF itemP := by
        rw [readPtr_congr sz sI sF sI.item h1 h2, h6]
      have harith : byteAdvance sz itemP =
          { alloc := curAlloc sF,
            off := ((curList sF).length - (n - 1)) * max sz 1 } := by
        rw [h8, byteAdvance_eq]
        have e : (curList sF).length - (n - 1) =
            (curList sF).length - n + 1 := by omega
        rw [e, Nat.add_mul, one_mul]
      cases hgv : g (readPtr sz sF itemP) with
      | none =>
        have hgvI : g (readPtr sz sI sI.item) = none := by rw [hval, hgv]
        rw [forEachLoop_step_none sz g f sI hneI hgvI,
          fastLoopBorrowed_step_none sz g f sF itemP endB hne hgv]
        obtain ⟨e1, e2, e3, e4, e5⟩ := ih (n - 1)
          (dropWrapper (cursorAdvance sz sI)) sF (byteAdvance sz itemP) endB
          h1 h2 h3 h4 rfl
          (by show byteAdvance sz sI.item = _; rw [h6]) h7 harith h9
          (by omega)
        exact ⟨e1, e2, e3, e4, by rw [hval, e5]⟩
      | some v2 =>
        have hgvI : g (readPtr sz sI sI.item) = some v2 := by rw [hval, hgv]
        have htagEq : is_owned sI = is_owned sF := h3
        by_cases hbo : is_owned sF = true
        · -- the container is already owned: both sides store directly
          have hoI : is_owned sI = true := htagEq.trans hbo
          rw [forEachLoop_step_some sz g f sI v2 hneI hgvI,
            fastLoopBorrowed_step_write_owned sz g f sF itemP endB v2 hne
              hgv hbo]
          have hwwI := wrapperWrite_owned sz (cursorAdvance sz sI)
            { item := sI.item, endp := sI.endp, owned := is_owned sI } v2 hoI
          have hLw : (curList (writePtr sz sF itemP v2)).length =
              (curList sF).length := curList_writePtr_length sz sF itemP v2
          have hAw : curAlloc (writePtr sz sF itemP v2) = curAlloc sF :=
            curAlloc_writePtr sz sF itemP v2
          obtain ⟨e1, e2, e3, e4, e5⟩ := ih (n - 1)
            (dropWrapper
              (wrapperWrite sz (cursorAdvance sz sI)
                { item := sI.item, endp := sI.endp, owned := is_owned sI }
                v2).1)
            (writePtr sz sF itemP v2) (byteAdvance sz itemP) endB
            (by simp only [dropWrapper_ext]
                rw [hwwI]
                show (writePtr sz (cursorAdvance sz sI) sI.item v2).ext = _
                rw [h6]
                exact (writePtr_congr sz (cursorAdvance sz sI) sF itemP v2
                  h1 h2).1)
            (by simp only [dropWrapper_ownedList]
                rw [hwwI]
                show (writePtr sz (cursorAdvance sz sI) sI.item
                    v2).ownedList = _
                rw [h6]
                exact (writePtr_congr sz (cursorAdvance sz sI) sF itemP v2
                  h1 h2).2)
            (by simp only [dropWrapper_isOwnedTag]
                rw [hwwI]
                show (writePtr sz (cursorAdvance sz sI) sI.item
                    v2).isOwnedTag = _
                exact ((writePtr_fields sz (cursorAdvance sz sI) sI.item
                    v2).2.1.trans h3).trans
                  (writePtr_fields sz sF itemP v2).2.1.symm)
            (by simp only [dropWrapper_cloneCount]
                rw [hwwI]
                show (writePtr sz (cursorAdvance sz sI) sI.item
                    v2).cloneCount = _
                exact ((writePtr_fields sz (cursorAdvance sz sI) sI.item
                    v2).2.2.1.trans h4).trans
                  (writePtr_fields sz sF itemP v2).2.2.1.symm)
            rfl
            (by simp only [dropWrapper_item]
                rw [hwwI]
                show (writePtr sz (cursorAdvance sz sI) sI.item v2).item = _
                rw [(writePtr_fields sz (cursorAdvance sz sI) sI.item
                  v2).2.2.2.1]
                show byteAdvance sz sI.item = _
                rw [h6])
            (by simp only [dropWrapper_endp]
                rw [hwwI]
                show (writePtr sz (cursorAdvance sz sI) sI.item v2).endp = _
                rw [(writePtr_fields sz (cursorAdvance sz sI) sI.item
                  v2).2.2.2.2.1]
                exact h7)
            (by rw [hLw, hAw]; exact harith)
            (by rw [hLw, hAw]; exact h9)
            (by rw [hLw]; omega)
          refine ⟨e1, e2, e3, e4, ?_⟩
          rw [hval]
          exact congrArg (List.cons (readPtr sz sF itemP)) e5
        · -- still borrowed: both sides clone and relocate, then store
          have hbo2 : is_owned sF = false := by
            simp only [Bool.not_eq_true] at hbo
            exact hbo
          have hoI : is_owned sI = false := htagEq.trans hbo2
          have hd : endB.off - itemP.off = n * max sz 1 := by
            rw [h8, h9]
            show (curList sF).length * max sz 1 -
              ((curList sF).length - n) * max sz 1 = _
            rw [← Nat.sub_mul]
            have e : (curList sF).length - ((curList sF).length - n) = n := by
              omega
            rw [e]
          have hLF : curList sF = sF.ext := by
            unfold curList
            have hbt : sF.isOwnedTag = false := hbo2
            simp [hbt]
          have heoF : ensure_owned sF =
              { sF with ownedList := sF.ext, isOwnedTag := true,
                        cloneCount := sF.cloneCount + 1 } :=
            ensure_owned_borrowed sF hbo2
          have hLeo : (curList (ensure_owned sF)).length = sF.ext.length := by
            rw [heoF]
            unfold curList
            simp
          have hAeo : curAlloc (ensure_owned sF) = 1 := by
            unfold curAlloc
            simp [ensure_owned_tag]
          rw [forEachLoop_step_some sz g f sI v2 hneI hgvI,
            fastLoopBorrowed_step_write_borrowed sz g f sF itemP endB v2 hne
              hgv hbo2]
          have hwwI := wrapperWrite_not_owned sz (cursorAdvance sz sI)
            { item := sI.item, endp := sI.endp, owned := is_owned sI } v2
            hoI hoI
          have hdI : sI.endp.off - sI.item.off = n * max sz 1 := by
            rw [h6, h7]; exact hd
          have hidx : n * max sz 1 / max sz 1 = n := mul_div_max sz n
          have hLI : sI.ext.length = sF.ext.length := by rw [h1]
          have hnL2 : n ≤ sF.ext.length := by
            rw [← hLF]
            exact hnL
          set PTR2 :=
            ({ alloc := curAlloc (ensure_owned sF),
               off := (0 + (curList (ensure_owned sF)).length * max sz 1)
                 - (endB.off - itemP.off) } : Ptr) with hPTR2
          set ENDB2 :=
            ({ alloc := curAlloc (ensure_owned sF),
               off := 0 + (curList (ensure_owned sF)).length * max sz 1 } :
              Ptr) with hENDB2
          have hP2alloc : PTR2.alloc = 1 := hAeo
          have hP2off : PTR2.off = sF.ext.length * max sz 1 - n * max sz 1 := by
            rw [hPTR2]
            show (0 + (curList (ensure_owned sF)).length * max sz 1)
              - (endB.off - itemP.off) = _
            rw [hd, hLeo, Nat.zero_add]
          obtain ⟨e1, e2, e3, e4, e5⟩ := ih (n - 1)
            (dropWrapper
              (wrapperWrite sz (cursorAdvance sz sI)
                { item := sI.item, endp := sI.endp, owned := is_owned sI }
                v2).1)
            (writePtr sz (ensure_owned sF) PTR2 v2)
            (byteAdvance sz PTR2) ENDB2
            (by simp only [dropWrapper_ext]
                rw [hwwI]
                show sI.ext = _
                rw [writePtr_alloc_one sz (ensure_owned sF) PTR2 v2 hP2alloc]
                show sI.ext = (ensure_owned sF).ext
                exact h1.trans (ensure_owned_ext sF).symm)
            (by simp only [dropWrapper_ownedList]
                rw [hwwI]
                show (cursorAdvance sz sI).ext.set
                    (((cursorAdvance sz sI).ext.length -
                      (sI.endp.off - sI.item.off) / max sz 1)
                      * max sz 1 / max sz 1) v2 = _
                rw [writePtr_alloc_one sz (ensure_owned sF) PTR2 v2 hP2alloc]
                show (cursorAdvance sz sI).ext.set
                    (((cursorAdvance sz sI).ext.length -
                      (sI.endp.off - sI.item.off) / max sz 1)
                      * max sz 1 / max sz 1) v2 =
                  (ensure_owned sF).ownedList.set (PTR2.off / max sz 1) v2
                rw [hP2off, ← Nat.sub_mul, mul_div_max]
                simp only [cursorAdvance_ext]
                rw [hdI, hidx, mul_div_max, heoF]
                show sI.ext.set (sI.ext.length - n) v2 =
                  sF.ext.set (sF.ext.length - n) v2
                rw [h1])
            (by simp only [dropWrapper_isOwnedTag]
                rw [hwwI]
                show true = _
                rw [writePtr_alloc_one sz (ensure_owned sF) PTR2 v2 hP2alloc]
                show true = (ensure_owned sF).isOwnedTag
                exact (ensure_owned_tag sF).symm)
            (by simp only [dropWrapper_cloneCount]
                rw [hwwI]
                show sI.cloneCount + 1 = _
                rw [writePtr_alloc_one sz (ensure_owned sF) PTR2 v2 hP2alloc]
                show sI.cloneCount + 1 = (ensure_owned sF).cloneCount
                rw [heoF]
                show sI.cloneCount + 1 = sF.cloneCount + 1
                rw [h4])
            rfl
            (by simp only [dropWrapper_item]
                rw [hwwI]
                show ({ alloc := 1,
                        off := ((cursorAdvance sz sI).ext.length -
                            (sI.endp.off - sI.item.off) / max sz 1 + 1)
                          * max sz 1 } : Ptr) = _
                rw [byteAdvance_eq, hP2off]
                simp only [cursorAdvance_ext]
                rw [hdI, hidx, hLI, ← Nat.sub_mul, Nat.add_mul, one_mul,
                  hAeo])
            (by simp only [dropWrapper_endp]
                rw [hwwI]
                show ({ alloc := 1,
                        off := (cursorAdvance sz sI).ext.length * max sz 1 } :
                    Ptr) = _
                rw [hENDB2]
                simp only [cursorAdvance_ext]
                rw [hLI, hAeo, hLeo, Nat.zero_add])
            (by rw [byteAdvance_eq, curAlloc_writePtr,
                  curList_writePtr_length, hAeo, hLeo, hP2alloc, hP2off]
                have e2 : sF.ext.length - (n - 1) =
                    sF.ext.length - n + 1 := by omega
                rw [e2, Nat.add_mul, one_mul, Nat.sub_mul])
            (by rw [hENDB2, curAlloc_writePtr, curList_writePtr_length,
                  hAeo, hLeo, Nat.zero_add])
            (by rw [curList_writePtr_length, hLeo]; omega)
          refine ⟨e1, e2, e3, e4, ?_⟩
          rw [hval]
          exact congrArg (List.cons (readPtr sz sF itemP)) e5
/-- Bisimulation between the for-each loop of the mutable iterator and the
owned-case loop of `fast_for_each_mut`: on an owned container the two
loops produce the same allocations, tag, clone counter and callback
trace. -/
theorem owned_loop_bisim [Inhabited α] (sz : Nat) (g : α → Option α) :
    ∀ (fuel n : Nat) (sI sF : S α) (itemP endB : Ptr),
      sI.ext = sF.ext → sI.ownedList = sF.ownedList →
      sI.isOwnedTag = sF.isOwnedTag → sI.cloneCount = sF.cloneCount →
      sI.guard = WrapperState.dead →
      sI.item = itemP → sI.endp = endB →
      sF.isOwnedTag = true →
      itemP = { alloc := curAlloc sF,
                off := ((curList sF).length - n) * max sz 1 } →
      endB = { alloc := curAlloc sF,
               off := (curList sF).length * max sz 1 } →
      n ≤ (curList sF).length →
      ((forEachLoop sz g fuel sI).1.ext =
          (fastLoopOwned sz g fuel sF itemP endB).1.ext ∧
        (forEachLoop sz g fuel sI).1.ownedList =
          (fastLoopOwned sz g fuel sF itemP endB).1.ownedList ∧
        (forEachLoop sz g fuel sI).1.isOwnedTag =
          (fastLoopOwned sz g fuel sF itemP endB).1.isOwnedTag ∧
        (forEachLoop sz g fuel sI).1.cloneCount =
          (fastLoopOwned sz g fuel sF itemP endB).1.cloneCount ∧
        (forEachLoop sz g fuel sI).2 =
          (fastLoopOwned sz g fuel sF itemP endB).2) := by
  intro fuel
  induction fuel with
  | zero =>
    intro n sI sF itemP endB h1 h2 h3 h4 h5 h6 h7 htagF h8 h9 hnL
    exact ⟨h1, h2, h3, h4, rfl⟩
  | succ f ih =>
    intro n sI sF itemP endB h1 h2 h3 h4 h5 h6 h7 htagF h8 h9 hnL
    have hm := max_sz_pos sz
    by_cases hn0 : n = 0
    · subst hn0
      have hie : itemP = endB := by rw [h8, h9]; simp
      have hieI : sI.item = sI.endp := by rw [h6, h7, hie]
      rw [forEachLoop_stop sz g _ sI hieI,
        fastLoopOwned_stop sz g _ sF itemP endB hie]
      exact ⟨h1, h2, h3, h4, rfl⟩
    · have hne : itemP ≠ endB := by
        rw [h8, h9]
        intro hcon
        have hoff : ((curList sF).length - n) * max sz 1 =
            (curList sF).length * max sz 1 := congrArg Ptr.off hcon
        have := Nat.eq_of_mul_eq_mul_right hm hoff
        omega
      have hneI : sI.item ≠ sI.endp := by rw [h6, h7]; exact hne
      have hval : readPtr sz sI sI.item = readPtr sz sF itemP := by
        rw [readPtr_congr sz sI sF sI.item h1 h2, h6]
      have harith : byteAdvance sz itemP =
          { alloc := curAlloc sF,
            off := ((curList sF).length - (n - 1)) * max sz 1 } := by
        rw [h8, byteAdvance_eq]
        have e : (curList sF).length - (n - 1) =
            (curList sF).length - n + 1 := by omega
        rw [e, Nat.add_mul, one_mul]
      rw [fastLoopOwned_step sz g f sF itemP endB hne]
      cases hgv : g (readPtr sz sF itemP) with
      | none =>
        have hgvI : g (readPtr sz sI sI.item) = none := by rw [hval, hgv]
        rw [forEachLoop_step_none sz g f sI hneI hgvI]
        obtain ⟨e1, e2, e3, e4, e5⟩ := ih (n - 1)
          (dropWrapper (cursorAdvance sz sI)) sF (byteAdvance sz itemP) endB
          h1 h2 h3 h4 rfl
          (by show byteAdvance sz sI.item = _; rw [h6]) h7 htagF harith h9
          (by omega)
        refine ⟨e1, e2, e3, e4, ?_⟩
        rw [hval]
        exact congrArg (List.cons (readPtr sz sF itemP)) e5
      | some v2 =>
        have hgvI : g (readPtr sz sI sI.item) = some v2 := by rw [hval, hgv]
        have hoI : is_owned sI = true := by
          show sI.isOwnedTag = true
          exact h3.trans htagF
        rw [forEachLoop_step_some sz g f sI v2 hneI hgvI]
        have hwwI := wrapperWrite_owned sz (cursorAdvance sz sI)
          { item := sI.item, endp := sI.endp, owned := is_owned sI } v2 hoI
        have hLw : (curList (writePtr sz sF itemP v2)).length =
            (curList sF).length := curList_writePtr_length sz sF itemP v2
        have hAw : curAlloc (writePtr sz sF itemP v2) = curAlloc sF :=
          curAlloc_writePtr sz sF itemP v2
        obtain ⟨e1, e2, e3, e4, e5⟩ := ih (n - 1)
          (dropWrapper
            (wrapperWrite sz (cursorAdvance sz sI)
              { item := sI.item, endp := sI.endp, owned := is_owned sI }
              v2).1)
          (writePtr sz sF itemP v2) (byteAdvance sz itemP) endB
          (by simp only [dropWrapper_ext]
              rw [hwwI]
              show (writePtr sz (cursorAdvance sz sI) sI.item v2).ext = _
              rw [h6]
              exact (writePtr_congr sz (cursorAdvance sz sI) sF itemP v2
                h1 h2).1)
          (by simp only [dropWrapper_ownedList]
              rw [hwwI]
              show (writePtr sz (cursorAdvance sz sI) sI.item
                  v2).ownedList = _
              rw [h6]
              exact (writePtr_congr sz (cursorAdvance sz sI) sF itemP v2
                h1 h2).2)
          (by simp only [dropWrapper_isOwnedTag]
              rw [hwwI]
              show (writePtr sz (cursorAdvance sz sI) sI.item
                  v2).isOwnedTag = _
              exact ((writePtr_fields sz (cursorAdvance sz sI) sI.item
                  v2).2.1.trans h3).trans
                (writePtr_fields sz sF itemP v2).2.1.symm)
          (by simp only [dropWrapper_cloneCount]
              rw [hwwI]
              show (writePtr sz (cursorAdvance sz sI) sI.item
                  v2).cloneCount = _
              exact ((writePtr_fields sz (cursorAdvance sz sI) sI.item
                  v2).2.2.1.trans h4).trans
                (writePtr_fields sz sF itemP v2).2.2.1.symm)
          rfl
          (by simp only [dropWrapper_item]
              rw [hwwI]
              show (writePtr sz (cursorAdvance sz sI) sI.item v2).item = _
              rw [(writePtr_fields sz (cursorAdvance sz sI) sI.item
                v2).2.2.2.1]
              show byteAdvance sz sI.item = _
              rw [h6])
          (by simp only [dropWrapper_endp]
              rw [hwwI]
              show (writePtr sz (cursorAdvance sz sI) sI.item v2).endp = _
              rw [(writePtr_fields sz (cursorAdvance sz sI) sI.item
                v2).2.2.2.2.1]
              exact h7)
          ((writePtr_fields sz sF itemP v2).2.1.trans htagF)
          (by rw [hLw, hAw]; exact harith)
          (by rw [hLw, hAw]; exact h9)
          (by rw [hLw]; omega)
        refine ⟨e1, e2, e3, e4, ?_⟩
        rw [hval]
        exact congrArg (List.cons (readPtr sz sF itemP)) e5

/-- A guard-Dead traversal start followed by the internal for-each,
evaluated: the cursor ranges over the whole current storage. -/
theorem iterForEach_run [Inhabited α] (sz : Nat) (s : S α) (g : α → Option α)
    (h : s.guard = WrapperState.dead) :
    iterForEach sz s g =
      Res.ok (forEachLoop sz g ((curList s).length * max sz 1 - 0 + 1)
        { s with
            item := { alloc := curAlloc s, off := 0 },
            endp := { alloc := curAlloc s,
                      off := (curList s).length * max sz 1 } }) := by
  unfold iterForEach
  rw [iter_mut_dead sz s h]
  show for_each sz _ g = _
  unfold for_each
  rw [if_neg (by simp only [ne_eq, not_not]; exact h)]

/-- `fast_for_each_mut` on an owned container, evaluated. -/
theorem fast_for_each_mut_owned_run [Inhabited α] (sz : Nat) (s : S α)
    (g : α → Option α) (ho : is_owned s = true) :
    fast_for_each_mut sz s g =
      fastLoopOwned sz g ((curList s).length * max sz 1 - 0 + 1) s
        { alloc := curAlloc s, off := 0 }
        { alloc := curAlloc s, off := (curList s).length * max sz 1 } := by
  unfold fast_for_each_mut
  rw [if_neg (by simp [ho])]
  rcases Nat.eq_zero_or_pos sz with h0 | hpos
  · subst h0
    simp [mut_pointer]
  · have h1 : sz ≠ 0 := by omega
    have h2 : max sz 1 = sz := by omega
    simp [h1, h2, mut_pointer]

/-- `fast_for_each_mut` on a borrowed container, evaluated. -/
theorem fast_for_each_mut_borrowed_run [Inhabited α] (sz : Nat) (s : S α)
    (g : α → Option α) (ho : is_owned s = false) :
    fast_for_each_mut sz s g =
      fastLoopBorrowed sz g ((curList s).length * max sz 1 - 0 + 1) s
        { alloc := curAlloc s, off := 0 }
        { alloc := curAlloc s, off := (curList s).length * max sz 1 } := by
  unfold fast_for_each_mut
  rw [if_pos (by simp [ho])]
  rcases Nat.eq_zero_or_pos sz with h0 | hpos
  · subst h0
    simp [mut_pointer]
  · have h1 : sz ≠ 0 := by omega
    have h2 : max sz 1 = sz := by omega
    simp [h1, h2, mut_pointer]

/-- C9: counterexample — at a state whose guard is still Alive, the
mutable iterator's internal for-each fails fatally (the guard check at
its entry panics), while `fast_for_each_mut` performs no guard check at
all and completes the traversal, mutating the container.  The two
traversal forms therefore do not have identical mutation semantics on
every container state. -/
theorem C9_identical_semantics_fails_on_live_guard :
    iterForEach 4 c9S c9g = Res.panic ∧
    (fast_for_each_mut 4 c9S c9g).1.ownedList = [47, 47] ∧
    obsRes (iterForEach 4 c9S c9g) ≠
      some (obsOf (fast_for_each_mut 4 c9S c9g).1
        (fast_for_each_mut 4 c9S c9g).2) := by
  refine ⟨rfl, rfl, ?_⟩
  intro hcon
  rw [show iterForEach 4 c9S c9g = Res.panic from rfl] at hcon
  exact Option.noConfusion hcon

/-- C9: amended — restricted to states whose guard is Dead (the only
states from which the iterator's internal for-each runs at all),
`fast_for_each_mut` and the mutable iterator's internal for-each have
identical mutation semantics: the same final external and owned
contents, the same tag, clone counter and guard, and the same sequence
of element values presented to the callback.  At guard-Alive states the
two diverge: the iterator path fails fatally while `fast_for_each_mut`
proceeds. -/
theorem C9_fast_for_each_refines_for_each [Inhabited α] (sz : Nat)
    (s : S α) (g : α → Option α) (h : s.guard = WrapperState.dead) :
    obsRes (iterForEach sz s g) =
      some (obsOf (fast_for_each_mut sz s g).1
        (fast_for_each_mut sz s g).2) := by
  rw [iterForEach_run sz s g h]
  by_cases ho : is_owned s = true
  · rw [fast_for_each_mut_owned_run sz s g ho]
    obtain ⟨e1, e2, e3, e4, e5⟩ := owned_loop_bisim sz g
      ((curList s).length * max sz 1 - 0 + 1) (curList s).length
      { s with
          item := { alloc := curAlloc s, off := 0 },
          endp := { alloc := curAlloc s,
                    off := (curList s).length * max sz 1 } }
      s
      { alloc := curAlloc s, off := 0 }
      { alloc := curAlloc s, off := (curList s).length * max sz 1 }
      rfl rfl rfl rfl h rfl rfl ho
      (by rw [Nat.sub_self, Nat.zero_mul])
      rfl (Nat.le_refl _)
    have hg1 := forEachLoop_guard sz g
      ((curList s).length * max sz 1 - 0 + 1)
      { s with
          item := { alloc := curAlloc s, off := 0 },
          endp := { alloc := curAlloc s,
                    off := (curList s).length * max sz 1 } }
      h
    have hg2 := (fastLoopOwned_guard sz g
      ((curList s).length * max sz 1 - 0 + 1) s
      { alloc := curAlloc s, off := 0 }
      { alloc := curAlloc s, off := (curList s).length * max sz 1 }).trans h
    simp only [obsRes]
    unfold obsOf
    rw [e1, e2, e3, e4, e5, hg1, hg2]
  · have hof : is_owned s = false := Bool.eq_false_iff.mpr ho
    rw [fast_for_each_mut_borrowed_run sz s g hof]
    obtain ⟨e1, e2, e3, e4, e5⟩ := borrowed_loop_bisim sz g
      ((curList s).length * max sz 1 - 0 + 1) (curList s).length
      { s with
          item := { alloc := curAlloc s, off := 0 },
          endp := { alloc := curAlloc s,
                    off := (curList s).length * max sz 1 } }
      s
      { alloc := curAlloc s, off := 0 }
      { alloc := curAlloc s, off := (curList s).length * max sz 1 }
      rfl rfl rfl rfl h rfl rfl
      (by rw [Nat.sub_self, Nat.zero_mul])
      rfl (Nat.le_refl _)
    have hg1 := forEachLoop_guard sz g
      ((curList s).length * max sz 1 - 0 + 1)
      { s with
          item := { alloc := curAlloc s, off := 0 },
          endp := { alloc := curAlloc s,
                    off := (curList s).length * max sz 1 } }
      h
    have hg2 := (fastLoopBorrowed_guard sz g
      ((curList s).length * max sz 1 - 0 + 1) s
      { alloc := curAlloc s, off := 0 }
      { alloc := curAlloc s, off := (curList s).length * max sz 1 }).trans h
    simp only [obsRes]
    unfold obsOf
    rw [e1, e2, e3, e4, e5, hg1, hg2]

/-- C9 witness: the amended equivalence applied to a concrete guard-Dead
borrowed container. -/
theorem C9_fast_for_each_refines_for_each_witness :
    (fromRef [32, 33] : S Nat).guard = WrapperState.dead ∧
    obsRes (iterForEach 4 (fromRef [32, 33]) c9g) =
      some (obsOf (fast_for_each_mut 4 (fromRef [32, 33]) c9g).1
        (fast_for_each_mut 4 (fromRef [32, 33]) c9g).2) :=
  ⟨rfl, C9_fast_for_each_refines_for_each 4 (fromRef [32, 33]) c9g rfl⟩

/-- C8: with `r = L - i` elements remaining (cursor at element `i` of `L`),
`nth n` returns none exactly when `n ≥ r`; otherwise it yields a wrapper
positioned at element `i + n` and leaves the cursor at element `i + n + 1`.
On the spec's example `[32, 33, 34, 35]`: after one `next`, `nth 1` yields
34, then `nth 0` yields 35, then `nth 1` yields none. -/
theorem C8_nth_skip_semantics (sz : Nat) (s : S α) (a i L n : Nat)
    (hi : s.item = { alloc := a, off := i * max sz 1 })
    (he : s.endp = { alloc := a, off := L * max sz 1 }) :
    ((n ≥ L - i → nth sz s n = (s, none)) ∧
      (n < L - i →
        nth sz s n =
          ({ s with item := { alloc := a, off := (i + n + 1) * max sz 1 } },
            some { item := { alloc := a, off := (i + n) * max sz 1 },
                   endp := s.endp, owned := is_owned s }))) ∧
    (c8n1.2.map (fun w => wrapperDeref 4 c8n1.1 w) = some 34 ∧
      c8n2.2.map (fun w => wrapperDeref 4 c8n2.1 w) = some 35 ∧
      c8n3.2 = none) := by
  have hlen : (s.endp.off - s.item.off) / max sz 1 = L - i := by
    rw [hi, he]
    show (L * max sz 1 - i * max sz 1) / max sz 1 = L - i
    rw [← Nat.sub_mul, mul_div_max]
  refine ⟨⟨?_, ?_⟩, by decide, by decide, by decide⟩
  · intro hn
    simp [nth, hlen, hn]
  · intro hn
    have hge : ¬ n ≥ L - i := by omega
    simp only [nth, hlen, hge, ge_iff_le, if_false]
    rw [hi]
    simp only [ite_sz_ptr, byteAdvance_eq]
    have e1 : i * max sz 1 + n * max sz 1 = (i + n) * max sz 1 := by
      rw [Nat.add_mul]
    have e2 : i * max sz 1 + n * max sz 1 + max sz 1 =
        (i + n + 1) * max sz 1 := by
      rw [Nat.add_mul, Nat.add_mul, one_mul]
    have e3 : (i + n) * max sz 1 + max sz 1 = (i + n + 1) * max sz 1 := by
      rw [Nat.add_mul (i + n) 1, one_mul]
    simp [e1, e2, e3, hi]

/-- C8 witness: from the state after one `next` over `[32, 33, 34, 35]`
(cursor at element 1 of 4), `nth 1` yields the wrapper for element 2 and
leaves the cursor at element 3. -/
theorem C8_nth_skip_semantics_witness :
    (1 : Nat) < 4 - 1 ∧
    nth 4 c8s2 1 =
      ({ c8s2 with item := { alloc := 0, off := (1 + 1 + 1) * max 4 1 } },
        some { item := { alloc := 0, off := (1 + 1) * max 4 1 },
               endp := c8s2.endp, owned := is_owned c8s2 }) :=
  ⟨by decide,
    (C8_nth_skip_semantics 4 c8s2 0 1 4 1 (by decide) (by decide)).1.2
      (by decide)⟩

end CowVecItem
